import Mathlib

/-!
# WormAnalysis.c: head/tail detection, segmentation and temporal tracking

A shallow embedding of `src/MyLibs/temp_debug/WormAnalysis.c`.

Conventions of the embedding.

* A C `int` is 32 bits wide.  Its values are modelled in `Int`, and the result of every
  addition, subtraction and multiplication that the source performs on `int` parameters,
  coordinates, lengths and their products is reduced by `wrapInt` to the two's complement
  range `[-2^31, 2^31)`, which is what the compiled program computes.  C `/` and `%` on
  `int` truncate towards zero and are `Int.tdiv` and `Int.tmod`.  A loop counter is the
  number it holds: it stays below the bound it is compared with, so counting up does not
  overflow.
* A `CvSeq*` that has been created is a `List` of its elements, `seq->total` is its length,
  `cvSeqPush` appends at the end and `cvClearSeq` empties it.  The curvature loop is defined
  on boundaries of at most 2^30 points (`none` beyond): up to there the sums of two indices
  that the code forms fit an `int`.
* A `CvPoint*` is an `Option CvPoint`: `none` is `NULL`, `some p` a pointer to a point whose
  current value is `p`.
* A function that may dereference `NULL` or divide by zero returns an `Option`; `none` is
  the run in which that happens.
* A `float` that only ever holds the constant `1000` or a converted `int` holds an integer
  value; it is modelled by that integer, and the conversion `int -> float` by `floatOfInt`.
-/

namespace WormAnalysis

/-! ## Data model -/

/-- The OpenCV point with integer coordinates. -/
structure CvPoint where
  x : Int
  y : Int
deriving DecidableEq, Repr

/-- The OpenCV constructor `cvPoint(x, y)`. -/
def cvPoint (x y : Int) : CvPoint := ⟨x, y⟩

/-- The fields of `SegmentedWorm` that `WormAnalysis.c` reads or writes. -/
structure SegmentedWorm where
  Centerline : List CvPoint
  LeftBound : List CvPoint
  RightBound : List CvPoint
  Head : Option CvPoint
  Tail : Option CvPoint
  centerOfWorm : Option CvPoint
  NumSegments : Int
deriving DecidableEq, Repr

/-- The fields of `WormTimeEvolution` that `WormAnalysis.c` reads or writes. -/
structure WormTimeEvolution where
  WormVelBuffer : List CvPoint
  RecentAcceleration : CvPoint
deriving DecidableEq, Repr

/-- The fields of `WormAnalysisData` that the analysis functions read or write.
`centroid` stands for `FluorFeatures->centroid`. -/
structure WormAnalysisData where
  Boundary : List CvPoint
  Centerline : List CvPoint
  Head : Option CvPoint
  Tail : Option CvPoint
  HeadIndex : Int
  TailIndex : Int
  Segmented : SegmentedWorm
  TimeEvolution : WormTimeEvolution
  centroid : Option CvPoint
deriving DecidableEq, Repr

/-- The fields of `WormAnalysisParam` that the analysis functions read. -/
structure WormAnalysisParam where
  NumSegments : Int
  LengthScale : Int
  MaxLocationChange : Int
  MaxPerimChange : Int
deriving DecidableEq, Repr

/-- The previous-frame snapshot `WormGeom`. -/
structure WormGeom where
  Head : CvPoint
  Tail : CvPoint
  Perimeter : Int
  centroid : Option CvPoint
deriving DecidableEq, Repr

/-! ## Machine integers -/

/-- The value a 32-bit `int` holds after an arithmetic result `n`: the representative of `n`
modulo 2^32 in `[-2^31, 2^31)`. -/
def wrapInt (n : Int) : Int := (n + 2147483648) % 4294967296 - 2147483648

/-! ## Helpers of other translation units -/

/-- Modelled from the spec: `PointDot` of `AndysComputations`, which is not under `src/`;
the spec calls it the dot product of the forward and backward vectors.  The callers hold
the result in an `int`, and the coordinates are `int`: every operation wraps. -/
def PointDot (VecA VecB : CvPoint) : Int :=
  wrapInt (wrapInt (VecA.x * VecB.x) + wrapInt (VecA.y * VecB.y))

/-- Modelled from the spec: `PointCross` of `AndysComputations`, which is not under `src/`;
the spec calls it the scalar cross product of the forward and backward vectors.  The
callers hold the result in an `int`, and the coordinates are `int`: every operation wraps. -/
def PointCross (VecA VecB : CvPoint) : Int :=
  wrapInt (wrapInt (VecA.x * VecB.y) - wrapInt (VecA.y * VecB.x))

/-- Modelled from the spec: `sqDist` of `AndysComputations`, which is not under `src/`;
the spec calls it the squared distance between two points.  The callers hold the result in
an `int`, and the coordinates are `int`: every operation wraps. -/
def sqDist (pta ptb : CvPoint) : Int :=
  wrapInt (wrapInt (wrapInt (pta.x - ptb.x) * wrapInt (pta.x - ptb.x)) +
    wrapInt (wrapInt (pta.y - ptb.y) * wrapInt (pta.y - ptb.y)))

/-- Modelled from the spec: `DistBetPtsOnCircBound` of `AndysComputations`, which is not
under `src/`; the spec gives circular distance = min(|i−j|, L−|i−j|). -/
def DistBetPtsOnCircBound (PtsOnBound IndexA IndexB : Int) : Int :=
  min |IndexA - IndexB| (PtsOnBound - |IndexA - IndexB|)

/-- OpenCV `cvGetSeqElem`: the element at `index`, where an index in `[-total, 0)` counts
from the end and one in `[total, 2*total)` wraps once; `none` is the `NULL` it returns for
any other index. -/
def cvGetSeqElem {α : Type} (seq : List α) (index : Int) : Option α :=
  let total : Int := seq.length
  let index1 := if index < 0 then index + total else index
  let index2 := if index1 ≥ total then index1 - total else index1
  if 0 ≤ index2 ∧ index2 < total then seq[index2.toNat]? else none

/-- The number of low bits that the conversion to `float` drops from `a`: the least `e`
with `a / 2^e < 2^24`.  The first argument bounds the recursion. -/
def floatDropBits : Nat → Nat → Nat
  | 0, _ => 0
  | fuel + 1, a => if a < 2 ^ 24 then 0 else floatDropBits fuel (a / 2) + 1

/-- The value of `(float) n` for an `int` n: IEEE-754 single precision keeps 24 significant
bits and rounds to nearest, ties to even.  The result is again an integer. -/
def floatOfInt (n : Int) : Int :=
  let a := n.natAbs
  if a < 2 ^ 24 then n
  else
    let e := floatDropBits a a
    let q := a / 2 ^ e
    let r := a % 2 ^ e
    let m := if 2 ^ e < 2 * r ∨ (2 * r = 2 ^ e ∧ q % 2 = 1) then q + 1 else q
    Int.sign n * ((m * 2 ^ e : Nat) : Int)

/-- The C loop `for (i = 0; i < n; i++) body`, threading the variables the body assigns.
The body fails when it dereferences `NULL`. -/
def forLoop {σ : Type} (body : σ → Nat → Option σ) (init : σ) : Nat → Option σ
  | 0 => some init
  | n + 1 => (forLoop body init n).bind (fun s => body s n)

/-! ## Head and tail from the boundary -/

/-- The variable `AheadPtr` in iteration `i` of the curvature loop of
`GivenBoundaryFindWormHeadTail`: `(i+Params->LengthScale)%TotalBPts`. -/
def AheadPtr (TotalBPts LengthScale : Int) (i : Nat) : Int :=
  Int.tmod (wrapInt (i + LengthScale)) TotalBPts

/-- The variable `BehindPtr` in iteration `i` of the curvature loop:
`(i+TotalBPts-Params->LengthScale)%TotalBPts`. -/
def BehindPtr (TotalBPts LengthScale : Int) (i : Nat) : Int :=
  Int.tmod (wrapInt (wrapInt (i + TotalBPts) - LengthScale)) TotalBPts

/-- One iteration of the curvature loop of `GivenBoundaryFindWormHeadTail`: the dot and
cross product of the forward and backward vector at `i`, pushed on the two sequences. -/
def curvatureBody (Boundary : List CvPoint) (LengthScale : Int)
    (s : List Int × List Int) (i : Nat) : Option (List Int × List Int) :=
  let TotalBPts : Int := Boundary.length
  let Ptr := Int.tmod i TotalBPts
  match cvGetSeqElem Boundary (AheadPtr TotalBPts LengthScale i), cvGetSeqElem Boundary Ptr,
      cvGetSeqElem Boundary (BehindPtr TotalBPts LengthScale i) with
  | some AheadPt, some Pt, some BehindPt =>
    let AheadVec := cvPoint (wrapInt (AheadPt.x - Pt.x)) (wrapInt (AheadPt.y - Pt.y))
    let BehindVec := cvPoint (wrapInt (Pt.x - BehindPt.x)) (wrapInt (Pt.y - BehindPt.y))
    let DotProdVal := PointDot AheadVec BehindVec
    let CrossProdVal := PointCross AheadVec BehindVec
    some (s.1 ++ [DotProdVal], s.2 ++ [CrossProdVal])
  | _, _, _ => none

/-- The curvature loop: the sequences `DotProds` and `CrossProds` after it.  A boundary of
more than 2^30 points is outside the embedding (`none`): the sum `i+TotalBPts` of the loop
and the sum `TailIndex+TotalBPts/2` after it need not fit an `int` there. -/
def curvatureLoop (Boundary : List CvPoint) (LengthScale : Int) :
    Option (List Int × List Int) :=
  if 1073741824 < Boundary.length then none
  else forLoop (curvatureBody Boundary LengthScale) ([], []) Boundary.length

/-- One iteration of the tail search; the state is `(MostCurvy, MostCurvyIndex)`. -/
def tailBody (DotProds CrossProds : List Int) (s : Int × Int) (i : Nat) :
    Option (Int × Int) :=
  match cvGetSeqElem DotProds i, cvGetSeqElem CrossProds i with
  | some DotProd, some CrossProd =>
    if floatOfInt DotProd < s.1 ∧ CrossProd > 0 then some (floatOfInt DotProd, i)
    else some s
  | _, _ => none

/-- One iteration of the head search; the state is
`(SecondMostCurvy, SecondMostCurvyIndex)`. -/
def headBody (DotProds CrossProds : List Int) (TotalBPts MostCurvyIndex : Int)
    (s : Int × Int) (i : Nat) : Option (Int × Int) :=
  match cvGetSeqElem DotProds i, cvGetSeqElem CrossProds i with
  | some DotProd, some CrossProd =>
    let DistBetPtsOnBound := DistBetPtsOnCircBound TotalBPts i MostCurvyIndex
    if DistBetPtsOnBound > Int.tdiv TotalBPts 4 then
      if floatOfInt DotProd < s.1 ∧ CrossProd > 0 then some (floatOfInt DotProd, i)
      else some s
    else some s
  | _, _ => none

/-- `GivenBoundaryFindWormHeadTail`: the return code and the worm afterwards. -/
def GivenBoundaryFindWormHeadTail (Worm : WormAnalysisData) (Params : WormAnalysisParam) :
    Option (Int × WormAnalysisData) :=
  if (Worm.Boundary.length : Int) < wrapInt (2 * Params.NumSegments) then some (-1, Worm)
  else
    let TotalBPts : Int := Worm.Boundary.length
    match curvatureLoop Worm.Boundary Params.LengthScale with
    | none => none
    | some (DotProds, CrossProds) =>
      match forLoop (tailBody DotProds CrossProds) (1000, 0) Worm.Boundary.length with
      | none => none
      | some (_, MostCurvyIndex) =>
        let Worm1 := { Worm with
          Tail := cvGetSeqElem Worm.Boundary MostCurvyIndex
          TailIndex := MostCurvyIndex }
        if TotalBPts = 0 then none
        else
          let fallback :=
            Int.tmod (wrapInt (Worm1.TailIndex + Int.tdiv TotalBPts 2)) TotalBPts
          match forLoop (headBody DotProds CrossProds TotalBPts MostCurvyIndex)
              (1000, fallback) Worm.Boundary.length with
          | none => none
          | some (_, SecondMostCurvyIndex) =>
            some (0, { Worm1 with
              Head := cvGetSeqElem Worm.Boundary SecondMostCurvyIndex
              HeadIndex := SecondMostCurvyIndex })

/-- `ReverseWormHeadTail`: the return code and the worm afterwards. -/
def ReverseWormHeadTail (Worm : WormAnalysisData) : Int × WormAnalysisData :=
  if Worm.Head = none ∨ Worm.Tail = none then (-1, Worm)
  else
    let tempa := Worm.Head
    let tempb := Worm.Tail
    let tempindexa := Worm.HeadIndex
    let tempindexb := Worm.TailIndex
    (0, { Worm with
      Head := tempb
      Tail := tempa
      HeadIndex := tempindexb
      TailIndex := tempindexa })

/-! ## Segmentation -/

/-- `ClearSegmentedInfo`: the three sequences are cleared, nothing else is touched. -/
def ClearSegmentedInfo (SegWorm : SegmentedWorm) : SegmentedWorm :=
  { SegWorm with LeftBound := [], RightBound := [], Centerline := [] }

/-- `SegmentWorm`.  `cvSeqExists` belongs to `AndysOpenCVLib`, which is not under `src/`,
and is a parameter.  Everything after the clearing of the scratch storage is commented out
in the source, the final `return 0` included, so the function ends without returning a
value: the first component is `none` then. -/
def SegmentWorm (cvSeqExists : List CvPoint → Int) (Worm : WormAnalysisData)
    (Params : WormAnalysisParam) : Option Int × WormAnalysisData :=
  if cvSeqExists Worm.Boundary = 0 then (some (-1), Worm)
  else
    let Seg1 := { Worm.Segmented with NumSegments := Params.NumSegments }
    let Seg2 := ClearSegmentedInfo Seg1
    let Seg3 := { Seg2 with Head := Worm.Head, Tail := Worm.Tail }
    (none, { Worm with Segmented := Seg3 })

/-! ## Temporal analysis -/

/-- `PrevFrameImproveWormHeadTail`: the return code and the worm afterwards.  The
comparisons with `NULL` in the source are comparisons of an `int` with zero. -/
def PrevFrameImproveWormHeadTail (Worm : WormAnalysisData) (Params : WormAnalysisParam)
    (PrevWorm : WormGeom) : Option (Int × WormAnalysisData) :=
  if PrevWorm.Head.x = 0 ∨ PrevWorm.Head.y = 0 ∨ PrevWorm.Tail.y = 0 ∨ PrevWorm.Tail.x = 0
      ∨ PrevWorm.Perimeter = 0 then some (2, Worm)
  else
    match Worm.Head, Worm.Tail with
    | some Head, some Tail =>
      let CurrHead := cvPoint Head.x Head.y
      let CurrTail := cvPoint Tail.x Tail.y
      let SqDeltaHead := sqDist CurrHead PrevWorm.Head
      let SqDeltaTail := sqDist CurrTail PrevWorm.Tail
      let rsquared := wrapInt (Params.MaxLocationChange * Params.MaxLocationChange)
      if SqDeltaHead > rsquared ∨ SqDeltaTail > rsquared then
        let SqDeltaHeadInv := sqDist CurrHead PrevWorm.Tail
        let SqDeltaTailInv := sqDist CurrTail PrevWorm.Head
        if SqDeltaHeadInv < rsquared ∨ SqDeltaTailInv < rsquared then
          some (0, (ReverseWormHeadTail Worm).2)
        else some (-1, Worm)
      else some (1, Worm)
    | _, _ => none

/-! ## Creation of the structures, motion history and geometry snapshot -/

/-- `CreateSegmentedWormStruct`.  Head, Tail and centerOfWorm point to freshly allocated
points whose contents the function does not set; the arguments are those contents. -/
def CreateSegmentedWormStruct (Head Tail centerOfWorm : CvPoint) : SegmentedWorm :=
  { Centerline := []
    LeftBound := []
    RightBound := []
    Head := some Head
    Tail := some Tail
    centerOfWorm := some centerOfWorm
    NumSegments := 0 }

/-- `CreateWormTimeEvolution`: an empty velocity buffer and a zero acceleration. -/
def CreateWormTimeEvolution : WormTimeEvolution :=
  { WormVelBuffer := []
    RecentAcceleration := cvPoint 0 0 }

/-- Modelled from the spec: `PushToSeqBuffer` of `AndysOpenCVLib`, which is not under `src/`;
the spec describes a fixed-capacity buffer whose insertion evicts the oldest entry once
full. -/
def PushToSeqBuffer {α : Type} (seq : List α) (element : α) (MaxBuffSize : Int) : List α :=
  if MaxBuffSize ≤ (seq.length : Int) then seq.tail ++ [element] else seq ++ [element]

/-- `AddWormMotionHistory`: the return code and the time evolution afterwards.  `none` is a
`NULL` argument.  The codes `A_ERROR` and `A_OK` are declared outside `src/` and are
parameters. -/
def AddWormMotionHistory (A_ERROR A_OK : Int) (TimeEvolution : Option WormTimeEvolution)
    (CurrVelocity : CvPoint) (AnalysisParam : Option WormAnalysisParam) :
    Int × Option WormTimeEvolution :=
  match TimeEvolution, AnalysisParam with
  | some te, some _ =>
    let MaxBuff : Int := 5
    (A_OK, some { te with
      WormVelBuffer := PushToSeqBuffer te.WormVelBuffer CurrVelocity MaxBuff })
  | _, _ => (A_ERROR, TimeEvolution)

/-- `ClearWormGeom`: head, tail and perimeter are set to zero; `none` is a `NULL`
snapshot, on which nothing is done. -/
def ClearWormGeom (SimpleWorm : Option WormGeom) : Option WormGeom :=
  match SimpleWorm with
  | none => none
  | some g => some { g with Head := ⟨0, 0⟩, Perimeter := 0, Tail := ⟨0, 0⟩ }

/-- `CreateWormGeom`: a freshly allocated snapshot, cleared.  The argument is the content of
the allocated memory, of which the centroid pointer survives. -/
def CreateWormGeom (allocated : WormGeom) : Option WormGeom :=
  ClearWormGeom (some allocated)

/-- `LoadWormGeom`: the snapshot afterwards.  The two assignments of the head and the tail
are commented out in the source. -/
def LoadWormGeom (SimpleWorm : Option WormGeom) (Worm : WormAnalysisData) :
    Option WormGeom :=
  match SimpleWorm with
  | none => none
  | some g =>
    match ClearWormGeom (some g) with
    | none => none
    | some g1 => some { g1 with
        Perimeter := Worm.Boundary.length
        centroid := Worm.centroid }

/-! ## Illumination -/

/-- What `SimpleIlluminateWormLR` does to its temporary image and to the sequences, in the
order in which it does it: `filled` holds, for every call of `cvFillConvexPoly`, the segment
it was made for and the four corners of the polygon; `reads` holds the indices given to
`cvGetSeqElem`. -/
structure Illumination where
  filled : List (Int × List CvPoint)
  reads : List Int
deriving DecidableEq, Repr

/-- `IlluminateWormSegment`: fills the quadrilateral of one segment on one side; `none` is
the run in which one of the four points read is `NULL`. -/
def IlluminateWormSegment (image : Illumination) (centerline Boundary : List CvPoint)
    (segment : Int) : Option Illumination :=
  if segment < 1 then some image
  else
    match cvGetSeqElem centerline segment, cvGetSeqElem centerline (wrapInt (segment - 1)),
        cvGetSeqElem Boundary segment, cvGetSeqElem Boundary (wrapInt (segment - 1)) with
    | some PtAlongCenterline, some PrevPtAlongCenterline, some PtAlongBoundary,
        some PrevPtAlongBoundary =>
      let VecToBound := cvPoint (wrapInt (PtAlongBoundary.x - PtAlongCenterline.x))
        (wrapInt (PtAlongBoundary.y - PtAlongCenterline.y))
      let PrevVecToBound :=
        cvPoint (wrapInt (PrevPtAlongBoundary.x - PrevPtAlongCenterline.x))
          (wrapInt (PrevPtAlongBoundary.y - PrevPtAlongCenterline.y))
      let FarPt := cvPoint (wrapInt (PtAlongBoundary.x + wrapInt (2 * VecToBound.x)))
        (wrapInt (PtAlongBoundary.y + wrapInt (2 * VecToBound.y)))
      let PrevPt := cvPoint (wrapInt (PrevPtAlongBoundary.x + wrapInt (2 * PrevVecToBound.x)))
        (wrapInt (PrevPtAlongBoundary.y + wrapInt (2 * PrevVecToBound.y)))
      let myPolygon := [FarPt, PrevPt, PrevPtAlongCenterline, PtAlongCenterline]
      some { filled := image.filled ++ [(segment, myPolygon)]
             reads := image.reads ++
               [segment, wrapInt (segment - 1), segment, wrapInt (segment - 1)] }
    | _, _, _, _ => none

/-- One iteration of the loop of `SimpleIlluminateWormLR`, for `i = startSeg + k`; the
counter stays below `endSeg`, so counting up does not overflow. -/
def illuminateBody (SegWorm : SegmentedWorm) (lrc startSeg : Int) (image : Illumination)
    (k : Nat) : Option Illumination :=
  let i : Int := startSeg + k
  let image1 :=
    if lrc = 1 ∨ lrc = 3 then IlluminateWormSegment image SegWorm.Centerline SegWorm.LeftBound i
    else some image
  match image1 with
  | none => none
  | some image2 =>
    if lrc > 1 then IlluminateWormSegment image2 SegWorm.Centerline SegWorm.RightBound i
    else some image2

/-- `SimpleIlluminateWormLR`: the return code and the record of the temporary image, which
on the return code 0 is the image handed to `LoadFrameWithImage`.  The three sequences are
lists, so the test for `NULL` sequences never fires. -/
def SimpleIlluminateWormLR (SegWorm : SegmentedWorm) (center radius lrc : Int) :
    Option (Int × Illumination) :=
  let TempImage : Illumination := ⟨[], []⟩
  if 0 > center ∨ center > SegWorm.NumSegments then some (-1, TempImage)
  else
    let endSeg :=
      if wrapInt (center + radius) > wrapInt (SegWorm.NumSegments - 1) then
        wrapInt (SegWorm.NumSegments - 1)
      else wrapInt (center + radius)
    let startSeg := if wrapInt (center - radius) < 0 then 0 else wrapInt (center - radius)
    if SegWorm.Centerline.length = 0 ∨ SegWorm.LeftBound.length = 0 ∨
        SegWorm.RightBound.length = 0 then some (-1, TempImage)
    else
      match forLoop (illuminateBody SegWorm lrc startSeg) TempImage
          (endSeg - startSeg).toNat with
      | none => none
      | some image => some (0, image)

/-! ## Proof devices -/

/-- Proof device: the common shape of the tail and the head search. -/
def searchBody (DotProds CrossProds : List Int) (elig : Nat → Prop) [DecidablePred elig]
    (s : Int × Int) (i : Nat) : Option (Int × Int) :=
  match cvGetSeqElem DotProds i, cvGetSeqElem CrossProds i with
  | some DotProd, some CrossProd =>
    if elig i ∧ floatOfInt DotProd < s.1 ∧ CrossProd > 0 then some (floatOfInt DotProd, i)
    else some s
  | _, _ => none

/-- Proof device: what holds of `(MostCurvy, MostCurvyIndex)` after `n` iterations of a
search that started from `(1000, init)` and looks at the indices passing `elig`. -/
def SearchInv (D C : List Int) (elig : Nat → Prop) (init : Int) (n : Nat)
    (s : Int × Int) : Prop :=
  s.1 ≤ 1000 ∧
  (∀ j d c, j < n → elig j → D[j]? = some d → C[j]? = some c → 0 < c →
    s.1 ≤ floatOfInt d) ∧
  (s.1 < 1000 → ∃ k d c, k < n ∧ s.2 = (k : Int) ∧ elig k ∧ D[k]? = some d ∧
    C[k]? = some c ∧ 0 < c ∧ floatOfInt d = s.1 ∧
    ∀ j d' c', j < k → elig j → D[j]? = some d' → C[j]? = some c' → 0 < c' →
      s.1 < floatOfInt d') ∧
  (1000 ≤ s.1 → s.2 = init)

/-- The squared distance of two points as a mathematical integer: what `sqDist` returns
when the result fits an `int`. -/
def squaredDistance (pta ptb : CvPoint) : Int :=
  (pta.x - ptb.x) * (pta.x - ptb.x) + (pta.y - ptb.y) * (pta.y - ptb.y)

/-! ## Concrete inputs -/

/-- A worm with the given boundary, head and tail, and empty derived data. -/
def wormOf (Boundary : List CvPoint) (Head Tail : Option CvPoint)
    (HeadIndex TailIndex : Int) : WormAnalysisData :=
  { Boundary := Boundary
    Centerline := []
    Head := Head
    Tail := Tail
    HeadIndex := HeadIndex
    TailIndex := TailIndex
    Segmented := ⟨[], [], [], none, none, none, 0⟩
    TimeEvolution := ⟨[], ⟨0, 0⟩⟩
    centroid := none }

/-- Parameters with the given segment count, length scale and location tolerance, and the
default `MaxPerimChange` of `CreateWormAnalysisParam`. -/
def paramsOf (NumSegments LengthScale MaxLocationChange : Int) : WormAnalysisParam :=
  ⟨NumSegments, LengthScale, MaxLocationChange, 10⟩

/-- A closed contour of four points, all of whose cross products are positive. -/
def squareBoundary : List CvPoint := [⟨0, 10⟩, ⟨10, 10⟩, ⟨10, 0⟩, ⟨0, 0⟩]

/-- The same four points in the opposite order: all cross products are negative. -/
def squareBoundaryRev : List CvPoint := [⟨0, 0⟩, ⟨10, 0⟩, ⟨10, 10⟩, ⟨0, 10⟩]

/-- A worm on `squareBoundary` before its head and tail are found. -/
def squareWorm : WormAnalysisData := wormOf squareBoundary none none 0 0

/-- Parameters for `squareWorm`: two segments, length scale 1. -/
def squareParams : WormAnalysisParam := paramsOf 2 1 70

/-- A worm on `squareBoundary` with the given head and tail points, head index 2 and tail
index 0. -/
def trackedWorm (Head Tail : CvPoint) : WormAnalysisData :=
  wormOf squareBoundary (some Head) (some Tail) 2 0

/-- A convex contour of eight points with sides of 300, 141 and 200 pixels. -/
def octagon : List CvPoint :=
  [⟨100, 400⟩, ⟨400, 400⟩, ⟨500, 300⟩, ⟨500, 100⟩, ⟨400, 0⟩, ⟨100, 0⟩, ⟨0, 100⟩, ⟨0, 300⟩]

/-- Proof device: the dot and the cross product that iteration `i` of the curvature loop
pushes. -/
def curvatureAt (Boundary : List CvPoint) (LengthScale : Int) (i : Nat) :
    Option (Int × Int) :=
  let TotalBPts : Int := Boundary.length
  match cvGetSeqElem Boundary (AheadPtr TotalBPts LengthScale i),
      cvGetSeqElem Boundary (Int.tmod i TotalBPts),
      cvGetSeqElem Boundary (BehindPtr TotalBPts LengthScale i) with
  | some AheadPt, some Pt, some BehindPt =>
    some (PointDot (cvPoint (wrapInt (AheadPt.x - Pt.x)) (wrapInt (AheadPt.y - Pt.y)))
        (cvPoint (wrapInt (Pt.x - BehindPt.x)) (wrapInt (Pt.y - BehindPt.y))),
      PointCross (cvPoint (wrapInt (AheadPt.x - Pt.x)) (wrapInt (AheadPt.y - Pt.y)))
        (cvPoint (wrapInt (Pt.x - BehindPt.x)) (wrapInt (Pt.y - BehindPt.y))))
  | _, _, _ => none

/-- The point at position `k` of the perimeter of the square with corners `(x0, y0)`,
`(x0, y0 + 100)`, `(x0 + 100, y0 + 100)` and `(x0 + 100, y0)`, walked in that order, one
pixel a step: 100 points a side, 400 in all. -/
def squarePoint (x0 y0 : Int) (k : Nat) : CvPoint :=
  if k < 100 then ⟨x0, y0 + (k : Int)⟩
  else if k < 200 then ⟨x0 + ((k : Int) - 100), y0 + 100⟩
  else if k < 300 then ⟨x0 + 100, y0 + (300 - (k : Int))⟩
  else ⟨x0 + (400 - (k : Int)), y0⟩

/-- The four corners of that square. -/
def squareCorners (x0 y0 : Int) : List CvPoint :=
  [⟨x0, y0⟩, ⟨x0, y0 + 100⟩, ⟨x0 + 100, y0 + 100⟩, ⟨x0 + 100, y0⟩]

/-- The square contour of 400 points whose first point is at position `start` of the
perimeter. -/
def squareContour (x0 y0 : Int) (start : Nat) : List CvPoint :=
  (List.range 400).map (fun i => squarePoint x0 y0 ((i + start) % 400))

/-- Proof device: the dot product at position `k` of the square for the length scale 30. -/
def squareDot (k : Nat) : Int :=
  PointDot
    (cvPoint (wrapInt ((squarePoint 0 0 ((k + 30) % 400)).x - (squarePoint 0 0 k).x))
      (wrapInt ((squarePoint 0 0 ((k + 30) % 400)).y - (squarePoint 0 0 k).y)))
    (cvPoint (wrapInt ((squarePoint 0 0 k).x - (squarePoint 0 0 ((k + 370) % 400)).x))
      (wrapInt ((squarePoint 0 0 k).y - (squarePoint 0 0 ((k + 370) % 400)).y)))

/-- Proof device: the cross product at position `k` of the square for the length scale
30. -/
def squareCross (k : Nat) : Int :=
  PointCross
    (cvPoint (wrapInt ((squarePoint 0 0 ((k + 30) % 400)).x - (squarePoint 0 0 k).x))
      (wrapInt ((squarePoint 0 0 ((k + 30) % 400)).y - (squarePoint 0 0 k).y)))
    (cvPoint (wrapInt ((squarePoint 0 0 k).x - (squarePoint 0 0 ((k + 370) % 400)).x))
      (wrapInt ((squarePoint 0 0 k).y - (squarePoint 0 0 ((k + 370) % 400)).y)))

/-- Proof device: the velocity buffer after the velocities `vs` were added, one call of
`AddWormMotionHistory` each, to the buffer made by `CreateWormTimeEvolution`. -/
def bufferAfter (A_ERROR A_OK : Int) (Params : WormAnalysisParam) (vs : List CvPoint) :
    Option WormTimeEvolution :=
  vs.foldl (fun te v => (AddWormMotionHistory A_ERROR A_OK te v (some Params)).2)
    (some CreateWormTimeEvolution)

/-- A segmented worm of two segments. -/
def twoSegments : SegmentedWorm :=
  { Centerline := [⟨5, 2⟩, ⟨5, 8⟩]
    LeftBound := [⟨0, 2⟩, ⟨0, 8⟩]
    RightBound := [⟨10, 2⟩, ⟨10, 8⟩]
    Head := some ⟨5, 0⟩
    Tail := some ⟨5, 10⟩
    centerOfWorm := some ⟨5, 8⟩
    NumSegments := 2 }

/-- A segmented worm of four segments. -/
def fourSegments : SegmentedWorm :=
  { Centerline := [⟨5, 0⟩, ⟨5, 3⟩, ⟨5, 6⟩, ⟨5, 9⟩]
    LeftBound := [⟨3, 0⟩, ⟨2, 3⟩, ⟨2, 6⟩, ⟨3, 9⟩]
    RightBound := [⟨7, 0⟩, ⟨8, 3⟩, ⟨8, 6⟩, ⟨7, 9⟩]
    Head := some ⟨5, 0⟩
    Tail := some ⟨5, 9⟩
    centerOfWorm := some ⟨5, 6⟩
    NumSegments := 4 }

/-! ## Lemmas on the helpers and the loops -/

/-- A value in the range of `int` is the value the `int` holds. -/
theorem wrapInt_eq (n : Int) (h : -2147483648 ≤ n ∧ n < 2147483648) : wrapInt n = n := by
  unfold wrapInt
  omega

/-- An `int` holds a value in `[-2^31, 2^31)`. -/
theorem wrapInt_range (n : Int) : -2147483648 ≤ wrapInt n ∧ wrapInt n < 2147483648 := by
  unfold wrapInt
  omega

/-- Wrapping does not raise a non-negative value. -/
theorem wrapInt_le (n : Int) (h : 0 ≤ n) : wrapInt n ≤ n := by
  unfold wrapInt
  omega

/-- The remainder of truncating division by a positive number is above its negation. -/
theorem neg_lt_tmod (a : Int) {b : Int} (h : 0 < b) : -b < Int.tmod a b := by
  obtain ⟨n, rfl⟩ := Int.eq_ofNat_of_zero_le h.le
  cases a with
  | ofNat m =>
    have := Int.tmod_nonneg (n : Int) (Int.ofNat_nonneg m)
    simp only [Int.ofNat_eq_coe] at *
    omega
  | negSucc m =>
    have hn : 0 < n := by omega
    have h1 : (m + 1) % n < n := Nat.mod_lt _ hn
    show -(n : Int) < -(((m + 1) % n : Nat) : Int)
    omega

/-- An index below the length reads that element. -/
theorem cvGetSeqElem_natCast {α : Type} (l : List α) (i : Nat) (h : i < l.length) :
    cvGetSeqElem l (i : Int) = some l[i] := by
  unfold cvGetSeqElem
  have h1 : ¬ ((i : Int) < 0) := by omega
  have h2 : ¬ ((i : Int) ≥ (l.length : Int)) := by omega
  simp only [h1, h2, if_false]
  have h3 : (0 : Int) ≤ (i : Int) ∧ (i : Int) < (l.length : Int) := by omega
  rw [if_pos h3]
  simp [h]

/-- On a non-empty sequence every index of the form `a % total` reads an element. -/
theorem cvGetSeqElem_tmod {α : Type} (l : List α) (a : Int) (h : 0 < l.length) :
    ∃ p, cvGetSeqElem l (Int.tmod a l.length) = some p := by
  have hpos : (0 : Int) < (l.length : Int) := by omega
  have hlt := Int.tmod_lt_of_pos a hpos
  have hgt := neg_lt_tmod a hpos
  generalize Int.tmod a (l.length : Int) = m at hlt hgt
  unfold cvGetSeqElem
  by_cases hm : m < 0
  · have h2 : ¬ (m + (l.length : Int) ≥ (l.length : Int)) := by omega
    have h3 : 0 ≤ m + (l.length : Int) ∧ m + (l.length : Int) < (l.length : Int) := by omega
    simp only [hm, if_true, h2, if_false, h3, and_self]
    have h4 : (m + (l.length : Int)).toNat < l.length := by omega
    exact ⟨l[(m + (l.length : Int)).toNat], List.getElem?_eq_getElem h4⟩
  · have h2 : ¬ (m ≥ (l.length : Int)) := by omega
    have h3 : 0 ≤ m ∧ m < (l.length : Int) := by omega
    simp only [hm, if_false, h2, h3, and_self, if_true]
    have h4 : m.toNat < l.length := by omega
    exact ⟨l[m.toNat], List.getElem?_eq_getElem h4⟩

/-- An index in `[0, total)` reads an element. -/
theorem cvGetSeqElem_in_range {α : Type} (l : List α) (i : Int)
    (h : 0 ≤ i ∧ i < (l.length : Int)) : ∃ p, cvGetSeqElem l i = some p := by
  have hi : i.toNat < l.length := by omega
  have e : i = ((i.toNat : Nat) : Int) := by omega
  rw [e]
  exact ⟨_, cvGetSeqElem_natCast l i.toNat hi⟩

/-- An invariant that every iteration keeps holds after the loop, and the loop completes. -/
theorem forLoop_inv {σ : Type} (body : σ → Nat → Option σ) (init : σ) (Inv : Nat → σ → Prop)
    (n : Nat) (h0 : Inv 0 init)
    (hstep : ∀ i s, i < n → Inv i s → ∃ s', body s i = some s' ∧ Inv (i + 1) s') :
    ∀ k, k ≤ n → ∃ s, forLoop body init k = some s ∧ Inv k s := by
  intro k
  induction k with
  | zero => intro _; exact ⟨init, rfl, h0⟩
  | succ k ih =>
    intro hk
    obtain ⟨s, hs, hinv⟩ := ih (by omega)
    obtain ⟨s', hs', hinv'⟩ := hstep k s (by omega) hinv
    refine ⟨s', ?_, hinv'⟩
    simp [forLoop, hs, hs']

/-- Integers below 2^24 in magnitude convert to `float` without rounding. -/
theorem floatOfInt_exact (d : Int) (h : -16777216 < d ∧ d < 16777216) : floatOfInt d = d := by
  have h24 : d.natAbs < 2 ^ 24 := by omega
  unfold floatOfInt
  exact if_pos h24

/-- The tail search is the search over all indices. -/
theorem tailBody_eq_searchBody (D C : List Int) (s : Int × Int) (i : Nat) :
    tailBody D C s i = searchBody D C (fun _ => True) s i := by
  unfold tailBody searchBody
  cases cvGetSeqElem D (i : Int) <;> cases cvGetSeqElem C (i : Int) <;> simp

/-- The head search is the search over the indices far enough from the tail. -/
theorem headBody_eq_searchBody (D C : List Int) (L t : Int) (s : Int × Int) (i : Nat) :
    headBody D C L t s i
      = searchBody D C (fun j => DistBetPtsOnCircBound L (j : Int) t > Int.tdiv L 4) s i := by
  unfold headBody searchBody
  cases cvGetSeqElem D (i : Int) <;> cases cvGetSeqElem C (i : Int) <;> simp
  split_ifs <;> simp_all

/-- One iteration of a search keeps `SearchInv`. -/
theorem searchBody_step (D C : List Int) (elig : Nat → Prop) [DecidablePred elig]
    (init : Int) (i : Nat) (s : Int × Int) (hD : i < D.length) (hC : i < C.length)
    (hinv : SearchInv D C elig init i s) :
    ∃ s', searchBody D C elig s i = some s' ∧ SearchInv D C elig init (i + 1) s' := by
  obtain ⟨h1, h2, h3, h4⟩ := hinv
  have eD : D[i]? = some D[i] := List.getElem?_eq_getElem hD
  have eC : C[i]? = some C[i] := List.getElem?_eq_getElem hC
  unfold searchBody
  rw [cvGetSeqElem_natCast D i hD, cvGetSeqElem_natCast C i hC]
  by_cases hc : elig i ∧ floatOfInt D[i] < s.1 ∧ C[i] > 0
  · refine ⟨(floatOfInt D[i], (i : Int)), by simp [hc], ?_, ?_, ?_, ?_⟩
    · show floatOfInt D[i] ≤ 1000
      omega
    · intro j d c hj hel hd hcj hpos
      show floatOfInt D[i] ≤ floatOfInt d
      rcases Nat.lt_succ_iff_lt_or_eq.mp hj with hlt | heq
      · have := h2 j d c hlt hel hd hcj hpos
        omega
      · subst heq
        rw [eD] at hd
        cases hd
        exact le_refl _
    · intro _
      refine ⟨i, D[i], C[i], by omega, rfl, hc.1, eD, eC, hc.2.2, rfl, ?_⟩
      intro j d' c' hj hel hd hcj hpos
      show floatOfInt D[i] < floatOfInt d'
      have := h2 j d' c' hj hel hd hcj hpos
      omega
    · intro h
      have : (1000 : Int) ≤ floatOfInt D[i] := h
      omega
  · refine ⟨s, by simp [hc], h1, ?_, ?_, h4⟩
    · intro j d c hj hel hd hcj hpos
      rcases Nat.lt_succ_iff_lt_or_eq.mp hj with hlt | heq
      · exact h2 j d c hlt hel hd hcj hpos
      · subst heq
        rw [eD] at hd
        rw [eC] at hcj
        cases hd
        cases hcj
        by_contra hlt
        exact hc ⟨hel, by omega, hpos⟩
    · intro hs
      obtain ⟨k, d, c, hk, rest⟩ := h3 hs
      exact ⟨k, d, c, by omega, rest⟩

/-- A search over sequences of length `n` completes and ends in a state with `SearchInv`. -/
theorem search_loop (D C : List Int) (elig : Nat → Prop) [DecidablePred elig]
    (init : Int) (n : Nat) (hD : D.length = n) (hC : C.length = n) :
    ∃ s, forLoop (searchBody D C elig) (1000, init) n = some s ∧ SearchInv D C elig init n s := by
  refine forLoop_inv (searchBody D C elig) (1000, init) (SearchInv D C elig init) n ?_ ?_ n
    (le_refl n)
  · refine ⟨le_refl _, ?_, ?_, fun _ => rfl⟩
    · intro j d c hj
      omega
    · intro h
      exact absurd h (lt_irrefl _)
  · intro i s hi hinv
    exact searchBody_step D C elig init i s (by omega) (by omega) hinv

/-- A search ends on an index below `n` when it started on one. -/
theorem SearchInv_index_range (D C : List Int) (elig : Nat → Prop) (init : Int) (n : Nat)
    (s : Int × Int) (hinv : SearchInv D C elig init n s) (hinit : 0 ≤ init ∧ init < n) :
    0 ≤ s.2 ∧ s.2 < n := by
  obtain ⟨_, _, h3, h4⟩ := hinv
  by_cases hm : s.1 < 1000
  · obtain ⟨k, d, c, hk, hs, _⟩ := h3 hm
    omega
  · have := h4 (by omega)
    omega

/-- A boundary with at least `2*NumSegments` points, `NumSegments` positive, passes the
length test of `GivenBoundaryFindWormHeadTail`, whatever the `int` product is. -/
theorem lengthTest_passes (L N : Int) (hN : 0 < N) (hL : 2 * N ≤ L) :
    ¬ L < wrapInt (2 * N) := by
  have := wrapInt_le (2 * N) (by omega)
  omega

/-- A boundary on which the curvature loop completes has at most 2^30 points. -/
theorem curvatureLoop_bound (Boundary : List CvPoint) (LengthScale : Int)
    (r : List Int × List Int) (h : curvatureLoop Boundary LengthScale = some r) :
    Boundary.length ≤ 1073741824 := by
  unfold curvatureLoop at h
  by_contra hc
  rw [if_pos (by omega)] at h
  cases h

/-- The curvature loop completes on every boundary of at most 2^30 points and pushes one dot
and one cross product per boundary point. -/
theorem curvatureLoop_some (Boundary : List CvPoint) (LengthScale : Int)
    (hmax : Boundary.length ≤ 1073741824) :
    ∃ D C, curvatureLoop Boundary LengthScale = some (D, C) ∧ D.length = Boundary.length ∧
      C.length = Boundary.length := by
  unfold curvatureLoop
  rw [if_neg (Nat.not_lt.mpr hmax)]
  have key := forLoop_inv (curvatureBody Boundary LengthScale) ([], [])
    (fun i s => s.1.length = i ∧ s.2.length = i) Boundary.length ⟨rfl, rfl⟩ ?_ Boundary.length
    (le_refl _)
  · obtain ⟨⟨D, C⟩, hs, h1, h2⟩ := key
    exact ⟨D, C, hs, h1, h2⟩
  · intro i s hi hinv
    have hpos : 0 < Boundary.length := by omega
    obtain ⟨pa, ha⟩ : ∃ p, cvGetSeqElem Boundary
        (AheadPtr (Boundary.length : Int) LengthScale i) = some p :=
      cvGetSeqElem_tmod Boundary (wrapInt ((i : Int) + LengthScale)) hpos
    obtain ⟨pp, hp⟩ := cvGetSeqElem_tmod Boundary (i : Int) hpos
    obtain ⟨pb, hb⟩ : ∃ p, cvGetSeqElem Boundary
        (BehindPtr (Boundary.length : Int) LengthScale i) = some p :=
      cvGetSeqElem_tmod Boundary
        (wrapInt (wrapInt ((i : Int) + (Boundary.length : Int)) - LengthScale)) hpos
    refine ⟨(s.1 ++ [PointDot (cvPoint (wrapInt (pa.x - pp.x)) (wrapInt (pa.y - pp.y)))
        (cvPoint (wrapInt (pp.x - pb.x)) (wrapInt (pp.y - pb.y)))],
      s.2 ++ [PointCross (cvPoint (wrapInt (pa.x - pp.x)) (wrapInt (pa.y - pp.y)))
        (cvPoint (wrapInt (pp.x - pb.x)) (wrapInt (pp.y - pb.y)))]), ?_, ?_⟩
    · unfold curvatureBody
      simp only [ha, hp, hb]
    · simp [hinv.1, hinv.2]

/-- The fallback head index for a tail index in range on a boundary of at most 2^30 points:
the C expression agrees with the mathematical one, it is in range, and it is `t + L/2` or
`t + L/2 - L`. -/
theorem fallback_index (t L : Int) (ht : 0 ≤ t ∧ t < L) (hmax : L ≤ 1073741824) :
    Int.tmod (wrapInt (t + Int.tdiv L 2)) L = (t + L / 2) % L ∧
      0 ≤ (t + L / 2) % L ∧ (t + L / 2) % L < L ∧
      ((t + L / 2) % L = t + L / 2 ∨ (t + L / 2) % L = t + L / 2 - L) := by
  have hL : 0 ≤ L := by omega
  have e1 : Int.tdiv L 2 = L / 2 := Int.tdiv_eq_ediv hL (by decide)
  have e0 : wrapInt (t + L / 2) = t + L / 2 := wrapInt_eq _ (by omega)
  have e2 : Int.tmod (t + L / 2) L = (t + L / 2) % L :=
    Int.tmod_eq_emod (by omega) hL
  rw [e1, e0, e2]
  refine ⟨rfl, Int.emod_nonneg _ (by omega), Int.emod_lt_of_pos _ (by omega), ?_⟩
  by_cases hlt : t + L / 2 < L
  · left
    exact Int.emod_eq_of_lt (by omega) hlt
  · right
    have e3 : t + L / 2 = (t + L / 2 - L) + L := by ring
    rw [e3, Int.add_emod_self]
    have e4 : (t + L / 2 - L) % L = t + L / 2 - L :=
      Int.emod_eq_of_lt (by omega) (by omega)
    rw [e4]
    ring

/-- On a non-empty boundary of at most 2^30 points that passes the length test
`GivenBoundaryFindWormHeadTail` returns 0; the two searches end in states with `SearchInv`,
and the worm gets the indices they found and the boundary points there. -/
theorem GivenBoundaryFindWormHeadTail_success (Worm : WormAnalysisData)
    (Params : WormAnalysisParam) (hL : 0 < Worm.Boundary.length)
    (hmax : Worm.Boundary.length ≤ 1073741824)
    (hN : ¬ (Worm.Boundary.length : Int) < wrapInt (2 * Params.NumSegments)) :
    ∃ D C m t m2 h,
      curvatureLoop Worm.Boundary Params.LengthScale = some (D, C) ∧
      D.length = Worm.Boundary.length ∧ C.length = Worm.Boundary.length ∧
      SearchInv D C (fun _ => True) 0 Worm.Boundary.length (m, t) ∧
      SearchInv D C
        (fun j => DistBetPtsOnCircBound (Worm.Boundary.length : Int) (j : Int) t
          > Int.tdiv (Worm.Boundary.length : Int) 4)
        (Int.tmod (wrapInt (t + Int.tdiv (Worm.Boundary.length : Int) 2))
          (Worm.Boundary.length : Int))
        Worm.Boundary.length (m2, h) ∧
      GivenBoundaryFindWormHeadTail Worm Params = some (0, { Worm with
        Tail := cvGetSeqElem Worm.Boundary t
        TailIndex := t
        Head := cvGetSeqElem Worm.Boundary h
        HeadIndex := h }) := by
  obtain ⟨D, C, hcurv, hDl, hCl⟩ := curvatureLoop_some Worm.Boundary Params.LengthScale hmax
  obtain ⟨⟨m, t⟩, htail, htinv⟩ :=
    search_loop D C (fun _ => True) 0 Worm.Boundary.length hDl hCl
  obtain ⟨⟨m2, h⟩, hhead, hhinv⟩ :=
    search_loop D C
      (fun j => DistBetPtsOnCircBound (Worm.Boundary.length : Int) (j : Int) t
        > Int.tdiv (Worm.Boundary.length : Int) 4)
      (Int.tmod (wrapInt (t + Int.tdiv (Worm.Boundary.length : Int) 2))
        (Worm.Boundary.length : Int))
      Worm.Boundary.length hDl hCl
  refine ⟨D, C, m, t, m2, h, hcurv, hDl, hCl, htinv, hhinv, ?_⟩
  have e1 : tailBody D C = searchBody D C (fun _ => True) := by
    funext s i
    exact tailBody_eq_searchBody D C s i
  have e2 : headBody D C (Worm.Boundary.length : Int) t
      = searchBody D C (fun j => DistBetPtsOnCircBound (Worm.Boundary.length : Int) (j : Int) t
        > Int.tdiv (Worm.Boundary.length : Int) 4) := by
    funext s i
    exact headBody_eq_searchBody D C _ t s i
  have hne : ¬ ((Worm.Boundary.length : Int) = 0) := by omega
  unfold GivenBoundaryFindWormHeadTail
  rw [if_neg hN]
  simp only [hcurv, e1, htail, hne, if_false, e2, hhead]

/-- With the five fields of the previous geometry set and Head and Tail not `NULL`,
`PrevFrameImproveWormHeadTail` is its two nested comparisons. -/
theorem PrevFrame_unfold (Worm : WormAnalysisData) (Params : WormAnalysisParam)
    (PrevWorm : WormGeom) (head tail : CvPoint)
    (hset : PrevWorm.Head.x ≠ 0 ∧ PrevWorm.Head.y ≠ 0 ∧ PrevWorm.Tail.x ≠ 0 ∧
      PrevWorm.Tail.y ≠ 0 ∧ PrevWorm.Perimeter ≠ 0)
    (hH : Worm.Head = some head) (hT : Worm.Tail = some tail) :
    PrevFrameImproveWormHeadTail Worm Params PrevWorm =
      if sqDist head PrevWorm.Head
            > wrapInt (Params.MaxLocationChange * Params.MaxLocationChange) ∨
          sqDist tail PrevWorm.Tail
            > wrapInt (Params.MaxLocationChange * Params.MaxLocationChange) then
        if sqDist head PrevWorm.Tail
              < wrapInt (Params.MaxLocationChange * Params.MaxLocationChange) ∨
            sqDist tail PrevWorm.Head
              < wrapInt (Params.MaxLocationChange * Params.MaxLocationChange) then
          some (0, { Worm with
            Head := Worm.Tail
            Tail := Worm.Head
            HeadIndex := Worm.TailIndex
            TailIndex := Worm.HeadIndex })
        else some (-1, Worm)
      else some (1, Worm) := by
  obtain ⟨h1, h2, h3, h4, h5⟩ := hset
  have hrev : (ReverseWormHeadTail Worm).2 = { Worm with
      Head := Worm.Tail
      Tail := Worm.Head
      HeadIndex := Worm.TailIndex
      TailIndex := Worm.HeadIndex } := by
    simp [ReverseWormHeadTail, hH, hT]
  have hguard : ¬ (PrevWorm.Head.x = 0 ∨ PrevWorm.Head.y = 0 ∨ PrevWorm.Tail.y = 0 ∨
      PrevWorm.Tail.x = 0 ∨ PrevWorm.Perimeter = 0) := by
    simp [h1, h2, h3, h4, h5]
  unfold PrevFrameImproveWormHeadTail
  rw [if_neg hguard, hrev]
  simp only [hH, hT, cvPoint]

/-- An `int` differs from the value it was given by a multiple of 2^32. -/
theorem wrapInt_exists (n : Int) : ∃ k : Int, wrapInt n = n + 4294967296 * k :=
  ⟨-((n + 2147483648) / 4294967296), by unfold wrapInt; omega⟩

/-- Multiples of 2^32 do not change the value an `int` holds. -/
theorem wrapInt_add_mul (x m : Int) : wrapInt (x + 4294967296 * m) = wrapInt x := by
  unfold wrapInt
  omega

/-- The squared distance is not negative. -/
theorem squaredDistance_nonneg (a b : CvPoint) : 0 ≤ squaredDistance a b :=
  add_nonneg (mul_self_nonneg _) (mul_self_nonneg _)

/-- Whatever overflows on the way, `sqDist` returns the squared distance modulo 2^32. -/
theorem sqDist_eq_wrapInt (a b : CvPoint) : sqDist a b = wrapInt (squaredDistance a b) := by
  unfold sqDist squaredDistance
  obtain ⟨k1, h1⟩ := wrapInt_exists (a.x - b.x)
  obtain ⟨k2, h2⟩ := wrapInt_exists (a.y - b.y)
  rw [h1, h2]
  obtain ⟨k3, h3⟩ := wrapInt_exists
    ((a.x - b.x + 4294967296 * k1) * (a.x - b.x + 4294967296 * k1))
  obtain ⟨k4, h4⟩ := wrapInt_exists
    ((a.y - b.y + 4294967296 * k2) * (a.y - b.y + 4294967296 * k2))
  rw [h3, h4]
  have e : (a.x - b.x + 4294967296 * k1) * (a.x - b.x + 4294967296 * k1) + 4294967296 * k3
        + ((a.y - b.y + 4294967296 * k2) * (a.y - b.y + 4294967296 * k2) + 4294967296 * k4)
      = (a.x - b.x) * (a.x - b.x) + (a.y - b.y) * (a.y - b.y)
        + 4294967296 * (2 * (a.x - b.x) * k1 + 4294967296 * k1 * k1 + k3
          + 2 * (a.y - b.y) * k2 + 4294967296 * k2 * k2 + k4) := by ring
  rw [e, wrapInt_add_mul]

/-- A squared distance below 2^31 is what `sqDist` returns. -/
theorem sqDist_exact (a b : CvPoint) (h : squaredDistance a b < 2147483648) :
    sqDist a b = squaredDistance a b := by
  rw [sqDist_eq_wrapInt]
  exact wrapInt_eq _ ⟨by have := squaredDistance_nonneg a b; omega, h⟩

/-- The `int` that `sqDist` returns is at most the squared distance. -/
theorem sqDist_le (a b : CvPoint) : sqDist a b ≤ squaredDistance a b := by
  rw [sqDist_eq_wrapInt]
  exact wrapInt_le _ (squaredDistance_nonneg a b)

/-- A tolerance whose square is below 2^31 is squared without overflow. -/
theorem rsquared_exact (r : Int) (h : r * r < 2147483648) : wrapInt (r * r) = r * r :=
  wrapInt_eq _ ⟨by have := mul_self_nonneg r; omega, h⟩

/-- Whenever `SegmentWorm` passes its boundary check it ends without a return value and with
the three sequences of the segmented worm empty. -/
theorem SegmentWorm_clears (cvSeqExists : List CvPoint → Int) (Worm : WormAnalysisData)
    (Params : WormAnalysisParam) (h : cvSeqExists Worm.Boundary ≠ 0) :
    (SegmentWorm cvSeqExists Worm Params).1 = none ∧
    (SegmentWorm cvSeqExists Worm Params).2.Segmented.Centerline = [] ∧
    (SegmentWorm cvSeqExists Worm Params).2.Segmented.LeftBound = [] ∧
    (SegmentWorm cvSeqExists Worm Params).2.Segmented.RightBound = [] := by
  simp [SegmentWorm, ClearSegmentedInfo, h]

/-! ## C1: Segmentation output -/

/-- C1 (what the code does): on a worm whose boundary exists and has four points, with
NumSegments = 2, `SegmentWorm` reaches its end without a return value and leaves Centerline,
LeftBound and RightBound of the segmented worm with no entries instead of two each. -/
theorem SegmentWorm_leaves_sequences_empty :
    (squareWorm.Boundary.length : Int) ≥ 2 * squareParams.NumSegments ∧
    squareParams.NumSegments = 2 ∧
    (SegmentWorm (fun _ => 1) squareWorm squareParams).1 = none ∧
    (SegmentWorm (fun _ => 1) squareWorm squareParams).2.Segmented.Centerline.length = 0 ∧
    (SegmentWorm (fun _ => 1) squareWorm squareParams).2.Segmented.LeftBound.length = 0 ∧
    (SegmentWorm (fun _ => 1) squareWorm squareParams).2.Segmented.RightBound.length = 0 := by
  decide

/-! ## C2: Head and tail are far apart -/

/-- C2 (counterexample): on a boundary of one point with NumSegments = 0 and
LengthScale = 0, so that L = 1 ≥ 2·NumSegments and L ≥ 4·LengthScale, the call returns 0
with head index and tail index both 0: their circular distance is 0, not above L/4 = 0. -/
theorem headTail_not_apart_on_one_point :
    2 * (paramsOf 0 0 70).NumSegments ≤ (([⟨3, 4⟩] : List CvPoint).length : Int) ∧
    4 * (paramsOf 0 0 70).LengthScale ≤ (([⟨3, 4⟩] : List CvPoint).length : Int) ∧
    (GivenBoundaryFindWormHeadTail (wormOf [⟨3, 4⟩] none none 7 7) (paramsOf 0 0 70)).map
        (fun r => (r.1, r.2.HeadIndex, r.2.TailIndex)) = some (0, 0, 0) ∧
    ¬ (min |(0 : Int) - 0| ((([⟨3, 4⟩] : List CvPoint).length : Int) - |(0 : Int) - 0|)
        > (([⟨3, 4⟩] : List CvPoint).length : Int) / 4) := by
  decide

/-- C2 (amended): on a boundary of length L ≤ 2^30 with L ≥ 2·NumSegments, NumSegments ≥ 1
and L ≥ 4·LengthScale, `GivenBoundaryFindWormHeadTail` succeeds and the head and tail
indices it stores are at circular distance min(|h−t|, L−|h−t|) > L/4, whether the head came
from the search or from the fallback. -/
theorem headTail_circular_distance (Worm : WormAnalysisData) (Params : WormAnalysisParam)
    (hN : 0 < Params.NumSegments)
    (hL : 2 * Params.NumSegments ≤ (Worm.Boundary.length : Int))
    (hmax : Worm.Boundary.length ≤ 1073741824)
    (_hLS : 4 * Params.LengthScale ≤ (Worm.Boundary.length : Int)) :
    ∃ W', GivenBoundaryFindWormHeadTail Worm Params = some (0, W') ∧
      min |W'.HeadIndex - W'.TailIndex|
          ((Worm.Boundary.length : Int) - |W'.HeadIndex - W'.TailIndex|)
        > (Worm.Boundary.length : Int) / 4 := by
  have hpos : 0 < Worm.Boundary.length := by omega
  obtain ⟨D, C, m, t, m2, h, _, _, _, htinv, hhinv, hres⟩ :=
    GivenBoundaryFindWormHeadTail_success Worm Params hpos hmax (lengthTest_passes _ _ hN hL)
  refine ⟨_, hres, ?_⟩
  show min |h - t| ((Worm.Boundary.length : Int) - |h - t|) > (Worm.Boundary.length : Int) / 4
  have ht := SearchInv_index_range D C _ 0 _ (m, t) htinv (by omega)
  simp only at ht
  have e4 : Int.tdiv (Worm.Boundary.length : Int) 4 = (Worm.Boundary.length : Int) / 4 :=
    Int.tdiv_eq_ediv (by omega) (by decide)
  obtain ⟨_, _, h3, h4⟩ := hhinv
  by_cases hm : m2 < 1000
  · obtain ⟨k, d, c, _, hk, hel, _⟩ := h3 hm
    simp only at hk
    rw [hk]
    rw [e4] at hel
    exact hel
  · have hfb := h4 (by simp only; omega)
    simp only at hfb
    obtain ⟨e1, _, _, hcases⟩ :=
      fallback_index t (Worm.Boundary.length : Int) ht (by omega)
    rw [hfb, e1]
    apply lt_min_iff.mpr
    rcases hcases with hc | hc
    · rw [hc]
      have : t + (Worm.Boundary.length : Int) / 2 - t = (Worm.Boundary.length : Int) / 2 := by
        ring
      rw [this, abs_of_nonneg (by omega)]
      omega
    · rw [hc]
      have : t + (Worm.Boundary.length : Int) / 2 - (Worm.Boundary.length : Int) - t
          = -((Worm.Boundary.length : Int) - (Worm.Boundary.length : Int) / 2) := by ring
      rw [this, abs_neg, abs_of_nonneg (by omega)]
      omega

/-- C2 (amended) at the four-point square with NumSegments = 2 and LengthScale = 1. -/
theorem headTail_circular_distance_witness :
    ∃ W', GivenBoundaryFindWormHeadTail squareWorm squareParams = some (0, W') ∧
      min |W'.HeadIndex - W'.TailIndex|
          ((squareWorm.Boundary.length : Int) - |W'.HeadIndex - W'.TailIndex|)
        > (squareWorm.Boundary.length : Int) / 4 :=
  headTail_circular_distance squareWorm squareParams (by decide) (by decide) (by decide)
    (by decide)

/-! ## C3: Tail selection -/

/-- C5 (counterexample): on the empty boundary with NumSegments = 0 the length is
L = 0 ≥ 2·NumSegments, the curvature loop leaves both sequences empty, so no index has a
positive cross product, and the call does not return: after the tail search it computes
`(TailIndex + TotalBPts/2) % TotalBPts` with `TotalBPts = 0`.  No head is set. -/
theorem no_head_on_empty_boundary :
    2 * (paramsOf 0 1 70).NumSegments ≤ (([] : List CvPoint).length : Int) ∧
    curvatureLoop [] 1 = some ([], []) ∧
    GivenBoundaryFindWormHeadTail (wormOf [] none none 0 0) (paramsOf 0 1 70) = none := by
  decide

/-- C5 (amended): on a boundary of length L ≥ 2·NumSegments with NumSegments ≥ 1 (and at
most 2^30 points, as on every boundary on which the curvature loop yields a profile), when
no index is both at circular distance above L/4 from the tail index and of positive cross
product, `GivenBoundaryFindWormHeadTail` stores the head index (TailIndex + L/2) mod L, and
the head it stores is a point of the boundary. -/
theorem head_fallback (Worm : WormAnalysisData) (Params : WormAnalysisParam)
    (D C : List Int) (hN : 0 < Params.NumSegments)
    (hL : 2 * Params.NumSegments ≤ (Worm.Boundary.length : Int))
    (hprof : curvatureLoop Worm.Boundary Params.LengthScale = some (D, C)) :
    ∃ W', GivenBoundaryFindWormHeadTail Worm Params = some (0, W') ∧
      ((∀ (j : Nat) (c : Int), C[j]? = some c →
          DistBetPtsOnCircBound (Worm.Boundary.length : Int) (j : Int) W'.TailIndex
            > (Worm.Boundary.length : Int) / 4 → ¬ 0 < c) →
        W'.HeadIndex
            = (W'.TailIndex + (Worm.Boundary.length : Int) / 2) % (Worm.Boundary.length : Int) ∧
          ∃ p, W'.Head = some p) := by
  have hpos : 0 < Worm.Boundary.length := by omega
  have hmax := curvatureLoop_bound _ _ _ hprof
  obtain ⟨D', C', m, t, m2, h, hcurv, _, _, htinv, hhinv, hres⟩ :=
    GivenBoundaryFindWormHeadTail_success Worm Params hpos hmax (lengthTest_passes _ _ hN hL)
  rw [hprof] at hcurv
  cases hcurv
  have e4 : Int.tdiv (Worm.Boundary.length : Int) 4 = (Worm.Boundary.length : Int) / 4 :=
    Int.tdiv_eq_ediv (by omega) (by decide)
  rw [e4] at hhinv
  have ht := SearchInv_index_range D C _ 0 _ (m, t) htinv (by omega)
  simp only at ht
  obtain ⟨e1, hf0, hf1, _⟩ := fallback_index t (Worm.Boundary.length : Int) ht (by omega)
  refine ⟨_, hres, ?_⟩
  show (∀ (j : Nat) (c : Int), C[j]? = some c →
      DistBetPtsOnCircBound (Worm.Boundary.length : Int) (j : Int) t
        > (Worm.Boundary.length : Int) / 4 → ¬ 0 < c) →
    h = (t + (Worm.Boundary.length : Int) / 2) % (Worm.Boundary.length : Int) ∧
      ∃ p, cvGetSeqElem Worm.Boundary h = some p
  intro hnone
  obtain ⟨_, _, h3, h4⟩ := hhinv
  have hm : ¬ m2 < 1000 := by
    intro hlt
    obtain ⟨k, dk, ck, _, _, helk, _, hck, hckpos, _⟩ := h3 hlt
    exact hnone k ck hck helk hckpos
  have hfb : h = (t + (Worm.Boundary.length : Int) / 2) % (Worm.Boundary.length : Int) := by
    have := h4 (by simp only; omega)
    simp only at this
    rw [this, e1]
  refine ⟨hfb, ?_⟩
  rw [hfb]
  exact cvGetSeqElem_in_range Worm.Boundary _ ⟨hf0, hf1⟩

/-- C5 (amended) at the four-point square in the opposite order, where every cross product
is -100:
the tail index is 0 and the head index is the fallback 2. -/
theorem head_fallback_witness :
    ∃ W', GivenBoundaryFindWormHeadTail (wormOf squareBoundaryRev none none 0 0) squareParams
        = some (0, W') ∧
      W'.TailIndex = 0 ∧ W'.HeadIndex = 2 ∧ ∃ p, W'.Head = some p := by
  obtain ⟨W', hres, himp⟩ := head_fallback (wormOf squareBoundaryRev none none 0 0)
    squareParams [0, 0, 0, 0] [-100, -100, -100, -100] (by decide) (by decide) (by decide)
  have hval : GivenBoundaryFindWormHeadTail (wormOf squareBoundaryRev none none 0 0)
      squareParams
      = some (0, wormOf squareBoundaryRev (some ⟨10, 10⟩) (some ⟨0, 0⟩) 2 0) := by decide
  have hW : W' = wormOf squareBoundaryRev (some ⟨10, 10⟩) (some ⟨0, 0⟩) 2 0 := by
    rw [hval] at hres
    cases hres
    rfl
  have ht : W'.TailIndex = 0 := by rw [hW]; rfl
  have hno : ∀ (j : Nat) (c : Int), [-100, -100, -100, -100][j]? = some c →
      DistBetPtsOnCircBound
          ((wormOf squareBoundaryRev none none 0 0).Boundary.length : Int) (j : Int)
          W'.TailIndex
        > ((wormOf squareBoundaryRev none none 0 0).Boundary.length : Int) / 4 → ¬ 0 < c := by
    intro j c hc _
    have hmem : c ∈ [-100, -100, -100, -100] := List.getElem?_mem hc
    simp at hmem
    omega
  obtain ⟨hh, hp⟩ := himp hno
  refine ⟨W', hres, ht, ?_, hp⟩
  rw [hh, ht]
  decide

/-! ## C6: Return code of the head and tail search -/

/-- C6 (counterexample): on the empty boundary with NumSegments = 0 the point count 0 is not
below 2·NumSegments, and the call returns neither 0 nor -1: it divides by `TotalBPts = 0`.
On the four-point square with NumSegments = 2^30 the point count 4 is below
2·NumSegments = 2^31, but the `int` product `2*Params->NumSegments` is -2^31 and the call
returns 0. -/
theorem return_code_not_as_claimed :
    (¬ (((wormOf [] none none 0 0).Boundary.length : Int) < 2 * (paramsOf 0 1 70).NumSegments) ∧
      GivenBoundaryFindWormHeadTail (wormOf [] none none 0 0) (paramsOf 0 1 70) = none) ∧
    ((squareWorm.Boundary.length : Int) < 2 * (paramsOf 1073741824 1 70).NumSegments ∧
      wrapInt (2 * (paramsOf 1073741824 1 70).NumSegments) = -2147483648 ∧
      (GivenBoundaryFindWormHeadTail squareWorm (paramsOf 1073741824 1 70)).map
          (fun r => r.1) = some 0) := by
  decide

/-- C6 (amended): with 1 ≤ NumSegments < 2^30 (so that `2*NumSegments` fits an `int`) and a
boundary of at most 2^30 points, `GivenBoundaryFindWormHeadTail` returns -1 exactly when
the boundary has fewer than 2·NumSegments points and 0 otherwise, and when it returns -1
the worm, its Head, Tail, HeadIndex and TailIndex included, is as it was before the call. -/
theorem GivenBoundaryFindWormHeadTail_return_code (Worm : WormAnalysisData)
    (Params : WormAnalysisParam) (hN : 0 < Params.NumSegments)
    (hN2 : Params.NumSegments < 1073741824) (hmax : Worm.Boundary.length ≤ 1073741824) :
    ∃ r W', GivenBoundaryFindWormHeadTail Worm Params = some (r, W') ∧
      (r = -1 ↔ (Worm.Boundary.length : Int) < 2 * Params.NumSegments) ∧
      (r = 0 ↔ ¬ (Worm.Boundary.length : Int) < 2 * Params.NumSegments) ∧
      (r = -1 → W'.Head = Worm.Head ∧ W'.Tail = Worm.Tail ∧
        W'.HeadIndex = Worm.HeadIndex ∧ W'.TailIndex = Worm.TailIndex) := by
  have hw : wrapInt (2 * Params.NumSegments) = 2 * Params.NumSegments :=
    wrapInt_eq _ (by omega)
  by_cases hlt : (Worm.Boundary.length : Int) < 2 * Params.NumSegments
  · refine ⟨-1, Worm, ?_, ?_, ?_, ?_⟩
    · unfold GivenBoundaryFindWormHeadTail
      rw [hw, if_pos hlt]
    · simp [hlt]
    · simp [hlt]
    · intro _
      exact ⟨rfl, rfl, rfl, rfl⟩
  · have hpos : 0 < Worm.Boundary.length := by omega
    obtain ⟨D, C, m, t, m2, h, _, _, _, _, _, hres⟩ :=
      GivenBoundaryFindWormHeadTail_success Worm Params hpos hmax (by rw [hw]; exact hlt)
    refine ⟨0, _, hres, ?_, ?_, ?_⟩
    · simp [hlt]
    · simp [hlt]
    · intro h0
      exact absurd h0 (by decide)

/-- C6 (amended) at the four-point square with NumSegments = 3. -/
theorem GivenBoundaryFindWormHeadTail_return_code_witness :
    ∃ r W', GivenBoundaryFindWormHeadTail squareWorm (paramsOf 3 1 70) = some (r, W') ∧
      (r = -1 ↔ (squareWorm.Boundary.length : Int) < 2 * (paramsOf 3 1 70).NumSegments) ∧
      (r = 0 ↔ ¬ (squareWorm.Boundary.length : Int) < 2 * (paramsOf 3 1 70).NumSegments) ∧
      (r = -1 → W'.Head = squareWorm.Head ∧ W'.Tail = squareWorm.Tail ∧
        W'.HeadIndex = squareWorm.HeadIndex ∧ W'.TailIndex = squareWorm.TailIndex) :=
  GivenBoundaryFindWormHeadTail_return_code squareWorm (paramsOf 3 1 70) (by decide)
    (by decide) (by decide)

/-! ## C7: Reversal is an involution -/

/-- C7: when Head and Tail are set, `ReverseWormHeadTail` applied twice returns 0 both times
and the Head, Tail, HeadIndex and TailIndex are the original ones. -/
theorem ReverseWormHeadTail_twice (Worm : WormAnalysisData) (hH : Worm.Head ≠ none)
    (hT : Worm.Tail ≠ none) :
    (ReverseWormHeadTail Worm).1 = 0 ∧
    (ReverseWormHeadTail (ReverseWormHeadTail Worm).2).1 = 0 ∧
    (ReverseWormHeadTail (ReverseWormHeadTail Worm).2).2.Head = Worm.Head ∧
    (ReverseWormHeadTail (ReverseWormHeadTail Worm).2).2.Tail = Worm.Tail ∧
    (ReverseWormHeadTail (ReverseWormHeadTail Worm).2).2.HeadIndex = Worm.HeadIndex ∧
    (ReverseWormHeadTail (ReverseWormHeadTail Worm).2).2.TailIndex = Worm.TailIndex := by
  simp [ReverseWormHeadTail, hH, hT]

/-- C7 at a worm with head (10,0) and tail (0,10). -/
theorem ReverseWormHeadTail_twice_witness :
    (ReverseWormHeadTail (trackedWorm ⟨10, 0⟩ ⟨0, 10⟩)).1 = 0 ∧
    (ReverseWormHeadTail (ReverseWormHeadTail (trackedWorm ⟨10, 0⟩ ⟨0, 10⟩)).2).1 = 0 ∧
    (ReverseWormHeadTail (ReverseWormHeadTail (trackedWorm ⟨10, 0⟩ ⟨0, 10⟩)).2).2.Head
      = (trackedWorm ⟨10, 0⟩ ⟨0, 10⟩).Head ∧
    (ReverseWormHeadTail (ReverseWormHeadTail (trackedWorm ⟨10, 0⟩ ⟨0, 10⟩)).2).2.Tail
      = (trackedWorm ⟨10, 0⟩ ⟨0, 10⟩).Tail ∧
    (ReverseWormHeadTail (ReverseWormHeadTail (trackedWorm ⟨10, 0⟩ ⟨0, 10⟩)).2).2.HeadIndex
      = (trackedWorm ⟨10, 0⟩ ⟨0, 10⟩).HeadIndex ∧
    (ReverseWormHeadTail (ReverseWormHeadTail (trackedWorm ⟨10, 0⟩ ⟨0, 10⟩)).2).2.TailIndex
      = (trackedWorm ⟨10, 0⟩ ⟨0, 10⟩).TailIndex :=
  ReverseWormHeadTail_twice (trackedWorm ⟨10, 0⟩ ⟨0, 10⟩) (by decide) (by decide)

/-! ## C8: Consistent frames -/

/-- C8 (counterexample), MaxLocationChange = 65536, whose square 2^32 is 0 in the `int`
`rsquared`.  Previous head (1,1) and tail (10,10), head (1,2) and tail (10,10): the squared
distances 1 and 0 are both at most MaxLocationChange², and the code returns -1. -/
theorem PrevFrame_overflow_not_consistent :
    squaredDistance ⟨1, 2⟩ ⟨1, 1⟩ ≤ (paramsOf 2 1 65536).MaxLocationChange
      * (paramsOf 2 1 65536).MaxLocationChange ∧
    squaredDistance ⟨10, 10⟩ ⟨10, 10⟩ ≤ (paramsOf 2 1 65536).MaxLocationChange
      * (paramsOf 2 1 65536).MaxLocationChange ∧
    wrapInt ((paramsOf 2 1 65536).MaxLocationChange
      * (paramsOf 2 1 65536).MaxLocationChange) = 0 ∧
    PrevFrameImproveWormHeadTail (trackedWorm ⟨1, 2⟩ ⟨10, 10⟩) (paramsOf 2 1 65536)
        ⟨⟨1, 1⟩, ⟨10, 10⟩, 4, none⟩
      = some (-1, trackedWorm ⟨1, 2⟩ ⟨10, 10⟩) := by
  decide

/-- C8 (amended): when the five fields of the previous geometry are set, MaxLocationChange²
is below 2^31 (so that it fits the `int` `rsquared`), and the squared distances head to
previous head and tail to previous tail are both at most MaxLocationChange²,
`PrevFrameImproveWormHeadTail` returns 1 and the worm, its Head, Tail, HeadIndex and
TailIndex included, is unchanged. -/
theorem PrevFrame_consistent (Worm : WormAnalysisData) (Params : WormAnalysisParam)
    (PrevWorm : WormGeom) (head tail : CvPoint)
    (hset : PrevWorm.Head.x ≠ 0 ∧ PrevWorm.Head.y ≠ 0 ∧ PrevWorm.Tail.x ≠ 0 ∧
      PrevWorm.Tail.y ≠ 0 ∧ PrevWorm.Perimeter ≠ 0)
    (hH : Worm.Head = some head) (hT : Worm.Tail = some tail)
    (hM : Params.MaxLocationChange * Params.MaxLocationChange < 2147483648)
    (hdh : squaredDistance head PrevWorm.Head
      ≤ Params.MaxLocationChange * Params.MaxLocationChange)
    (hdt : squaredDistance tail PrevWorm.Tail
      ≤ Params.MaxLocationChange * Params.MaxLocationChange) :
    PrevFrameImproveWormHeadTail Worm Params PrevWorm = some (1, Worm) := by
  rw [PrevFrame_unfold Worm Params PrevWorm head tail hset hH hT, rsquared_exact _ hM,
    sqDist_exact head PrevWorm.Head (by omega), sqDist_exact tail PrevWorm.Tail (by omega)]
  rw [if_neg (by omega)]

/-- C8 (amended) at MaxLocationChange = 70, previous head (100,100) and tail (200,200), head
(103,98) and tail (201,204). -/
theorem PrevFrame_consistent_witness :
    PrevFrameImproveWormHeadTail (trackedWorm ⟨103, 98⟩ ⟨201, 204⟩) (paramsOf 2 1 70)
        ⟨⟨100, 100⟩, ⟨200, 200⟩, 4, none⟩
      = some (1, trackedWorm ⟨103, 98⟩ ⟨201, 204⟩) :=
  PrevFrame_consistent (trackedWorm ⟨103, 98⟩ ⟨201, 204⟩) (paramsOf 2 1 70)
    ⟨⟨100, 100⟩, ⟨200, 200⟩, 4, none⟩ ⟨103, 98⟩ ⟨201, 204⟩ (by decide) rfl rfl
    (by decide) (by decide) (by decide)

/-! ## C9: Swapped frames -/

/-- C10 (counterexample); in each case the head is within MaxLocationChange of the previous
tail and the tail within MaxLocationChange of the previous head.  MaxLocationChange = 5:
previous head (0,50), whose x is the zero that marks an unset field: the code returns 2;
previous head (10,10) and tail (12,10), head and tail also within tolerance of their own
previous positions: the code returns 1; previous head (10,10) and tail (20,10), head
(25,10), tail (5,10), both swapped squared distances equal to MaxLocationChange²: the code
returns -1; previous head (1,1) and tail (65537,1), head (65537,1), tail (1,1): the direct
squared distances 2^32 are 0 in `int` and the code returns 1.  MaxLocationChange = 65536,
previous head (1,1) and tail (70000,2), head (70000,1), tail (1,2): the `int` `rsquared` is
0 and the code returns -1.  Nothing is exchanged in any of them. -/
theorem PrevFrame_swapped_pair_not_always_corrected :
    (squaredDistance ⟨30, 50⟩ ⟨30, 50⟩ ≤ 5 * 5 ∧ squaredDistance ⟨0, 50⟩ ⟨0, 50⟩ ≤ 5 * 5 ∧
      PrevFrameImproveWormHeadTail (trackedWorm ⟨30, 50⟩ ⟨0, 50⟩) (paramsOf 2 1 5)
        ⟨⟨0, 50⟩, ⟨30, 50⟩, 100, none⟩ = some (2, trackedWorm ⟨30, 50⟩ ⟨0, 50⟩)) ∧
    (squaredDistance ⟨12, 10⟩ ⟨12, 10⟩ ≤ 5 * 5 ∧ squaredDistance ⟨10, 10⟩ ⟨10, 10⟩ ≤ 5 * 5 ∧
      PrevFrameImproveWormHeadTail (trackedWorm ⟨12, 10⟩ ⟨10, 10⟩) (paramsOf 2 1 5)
        ⟨⟨10, 10⟩, ⟨12, 10⟩, 4, none⟩ = some (1, trackedWorm ⟨12, 10⟩ ⟨10, 10⟩)) ∧
    (squaredDistance ⟨25, 10⟩ ⟨20, 10⟩ ≤ 5 * 5 ∧ squaredDistance ⟨5, 10⟩ ⟨10, 10⟩ ≤ 5 * 5 ∧
      PrevFrameImproveWormHeadTail (trackedWorm ⟨25, 10⟩ ⟨5, 10⟩) (paramsOf 2 1 5)
        ⟨⟨10, 10⟩, ⟨20, 10⟩, 4, none⟩ = some (-1, trackedWorm ⟨25, 10⟩ ⟨5, 10⟩)) ∧
    (squaredDistance ⟨65537, 1⟩ ⟨65537, 1⟩ ≤ 5 * 5 ∧ squaredDistance ⟨1, 1⟩ ⟨1, 1⟩ ≤ 5 * 5 ∧
      squaredDistance ⟨65537, 1⟩ ⟨1, 1⟩ > 5 * 5 ∧
      PrevFrameImproveWormHeadTail (trackedWorm ⟨65537, 1⟩ ⟨1, 1⟩) (paramsOf 2 1 5)
        ⟨⟨1, 1⟩, ⟨65537, 1⟩, 4, none⟩ = some (1, trackedWorm ⟨65537, 1⟩ ⟨1, 1⟩)) ∧
    (squaredDistance ⟨70000, 1⟩ ⟨70000, 2⟩ ≤ 65536 * 65536 ∧
      squaredDistance ⟨1, 2⟩ ⟨1, 1⟩ ≤ 65536 * 65536 ∧
      PrevFrameImproveWormHeadTail (trackedWorm ⟨70000, 1⟩ ⟨1, 2⟩) (paramsOf 2 1 65536)
        ⟨⟨1, 1⟩, ⟨70000, 2⟩, 4, none⟩ = some (-1, trackedWorm ⟨70000, 1⟩ ⟨1, 2⟩)) := by
  decide

/-- C10 (amended): when the five fields of the previous geometry are set, the two direct
squared distances (head to previous head, tail to previous tail) are below 2^31 (so that
they fit the `int` variables that hold them), the direct comparison fails, the head is
within MaxLocationChange of the previous tail and the tail within MaxLocationChange of the
previous head, and at least one of the two strictly so, `PrevFrameImproveWormHeadTail`
returns 0 and HeadIndex and TailIndex, and Head and Tail, are exchanged. -/
theorem PrevFrame_swap_corrected (Worm : WormAnalysisData) (Params : WormAnalysisParam)
    (PrevWorm : WormGeom) (head tail : CvPoint)
    (hset : PrevWorm.Head.x ≠ 0 ∧ PrevWorm.Head.y ≠ 0 ∧ PrevWorm.Tail.x ≠ 0 ∧
      PrevWorm.Tail.y ≠ 0 ∧ PrevWorm.Perimeter ≠ 0)
    (hH : Worm.Head = some head) (hT : Worm.Tail = some tail)
    (hd1 : squaredDistance head PrevWorm.Head < 2147483648)
    (hd2 : squaredDistance tail PrevWorm.Tail < 2147483648)
    (hdirect :
      squaredDistance head PrevWorm.Head
        > Params.MaxLocationChange * Params.MaxLocationChange ∨
      squaredDistance tail PrevWorm.Tail
        > Params.MaxLocationChange * Params.MaxLocationChange)
    (hinvH : squaredDistance head PrevWorm.Tail
      ≤ Params.MaxLocationChange * Params.MaxLocationChange)
    (hinvT : squaredDistance tail PrevWorm.Head
      ≤ Params.MaxLocationChange * Params.MaxLocationChange)
    (hstrict :
      squaredDistance head PrevWorm.Tail
        < Params.MaxLocationChange * Params.MaxLocationChange ∨
      squaredDistance tail PrevWorm.Head
        < Params.MaxLocationChange * Params.MaxLocationChange) :
    ∃ W', PrevFrameImproveWormHeadTail Worm Params PrevWorm = some (0, W') ∧
      W'.HeadIndex = Worm.TailIndex ∧ W'.TailIndex = Worm.HeadIndex ∧
      W'.Head = Worm.Tail ∧ W'.Tail = Worm.Head := by
  have hM : Params.MaxLocationChange * Params.MaxLocationChange < 2147483648 := by omega
  rw [PrevFrame_unfold Worm Params PrevWorm head tail hset hH hT, rsquared_exact _ hM,
    sqDist_exact head PrevWorm.Head hd1, sqDist_exact tail PrevWorm.Tail hd2,
    sqDist_exact head PrevWorm.Tail (by omega), sqDist_exact tail PrevWorm.Head (by omega)]
  rw [if_pos hdirect, if_pos hstrict]
  exact ⟨_, rfl, rfl, rfl, rfl, rfl⟩

/-- C10 (amended) at MaxLocationChange = 70, previous head (100,100) and tail (200,200),
head (201,204) and tail (103,98). -/
theorem PrevFrame_swap_corrected_witness :
    ∃ W', PrevFrameImproveWormHeadTail (trackedWorm ⟨201, 204⟩ ⟨103, 98⟩) (paramsOf 2 1 70)
        ⟨⟨100, 100⟩, ⟨200, 200⟩, 4, none⟩ = some (0, W') ∧
      W'.HeadIndex = (trackedWorm ⟨201, 204⟩ ⟨103, 98⟩).TailIndex ∧
      W'.TailIndex = (trackedWorm ⟨201, 204⟩ ⟨103, 98⟩).HeadIndex ∧
      W'.Head = (trackedWorm ⟨201, 204⟩ ⟨103, 98⟩).Tail ∧
      W'.Tail = (trackedWorm ⟨201, 204⟩ ⟨103, 98⟩).Head :=
  PrevFrame_swap_corrected (trackedWorm ⟨201, 204⟩ ⟨103, 98⟩) (paramsOf 2 1 70)
    ⟨⟨100, 100⟩, ⟨200, 200⟩, 4, none⟩ ⟨201, 204⟩ ⟨103, 98⟩ (by decide) rfl rfl
    (by decide) (by decide) (by decide) (by decide) (by decide) (by decide)

/-! ## C11: Lost frames -/

/-- C11 (counterexample), MaxLocationChange = 40000, previous head (1,1) and tail (1,5),
head (65537,3) and tail (65537,7): all four squared distances exceed MaxLocationChange²,
but in `int` the squared distance head to previous head is 4 and tail to previous tail is
4, and the code returns 1. -/
theorem PrevFrame_overflow_not_lost :
    squaredDistance ⟨65537, 3⟩ ⟨1, 1⟩ > (paramsOf 2 1 40000).MaxLocationChange
      * (paramsOf 2 1 40000).MaxLocationChange ∧
    squaredDistance ⟨65537, 7⟩ ⟨1, 5⟩ > (paramsOf 2 1 40000).MaxLocationChange
      * (paramsOf 2 1 40000).MaxLocationChange ∧
    squaredDistance ⟨65537, 3⟩ ⟨1, 5⟩ > (paramsOf 2 1 40000).MaxLocationChange
      * (paramsOf 2 1 40000).MaxLocationChange ∧
    squaredDistance ⟨65537, 7⟩ ⟨1, 1⟩ > (paramsOf 2 1 40000).MaxLocationChange
      * (paramsOf 2 1 40000).MaxLocationChange ∧
    sqDist ⟨65537, 3⟩ ⟨1, 1⟩ = 4 ∧ sqDist ⟨65537, 7⟩ ⟨1, 5⟩ = 4 ∧
    PrevFrameImproveWormHeadTail (trackedWorm ⟨65537, 3⟩ ⟨65537, 7⟩) (paramsOf 2 1 40000)
        ⟨⟨1, 1⟩, ⟨1, 5⟩, 4, none⟩
      = some (1, trackedWorm ⟨65537, 3⟩ ⟨65537, 7⟩) := by
  decide

/-- C11 (amended): when the five fields of the previous geometry are set and all four
squared distances (head and tail to previous head and previous tail) exceed
MaxLocationChange² and are below 2^31 (so that they fit the `int` variables that hold
them), `PrevFrameImproveWormHeadTail` returns -1 and leaves the worm as it was: Head, Tail,
HeadIndex, TailIndex and the motion-history buffer are unchanged. -/
theorem PrevFrame_lost (Worm : WormAnalysisData) (Params : WormAnalysisParam)
    (PrevWorm : WormGeom) (head tail : CvPoint)
    (hset : PrevWorm.Head.x ≠ 0 ∧ PrevWorm.Head.y ≠ 0 ∧ PrevWorm.Tail.x ≠ 0 ∧
      PrevWorm.Tail.y ≠ 0 ∧ PrevWorm.Perimeter ≠ 0)
    (hH : Worm.Head = some head) (hT : Worm.Tail = some tail)
    (hb1 : squaredDistance head PrevWorm.Head < 2147483648)
    (hb2 : squaredDistance tail PrevWorm.Tail < 2147483648)
    (hb3 : squaredDistance head PrevWorm.Tail < 2147483648)
    (hb4 : squaredDistance tail PrevWorm.Head < 2147483648)
    (hhh : squaredDistance head PrevWorm.Head
      > Params.MaxLocationChange * Params.MaxLocationChange)
    (_htt : squaredDistance tail PrevWorm.Tail
      > Params.MaxLocationChange * Params.MaxLocationChange)
    (hht : squaredDistance head PrevWorm.Tail
      > Params.MaxLocationChange * Params.MaxLocationChange)
    (hth : squaredDistance tail PrevWorm.Head
      > Params.MaxLocationChange * Params.MaxLocationChange) :
    ∃ W', PrevFrameImproveWormHeadTail Worm Params PrevWorm = some (-1, W') ∧
      W'.Head = Worm.Head ∧ W'.Tail = Worm.Tail ∧ W'.HeadIndex = Worm.HeadIndex ∧
      W'.TailIndex = Worm.TailIndex ∧
      W'.TimeEvolution.WormVelBuffer = Worm.TimeEvolution.WormVelBuffer := by
  have hM : Params.MaxLocationChange * Params.MaxLocationChange < 2147483648 := by omega
  rw [PrevFrame_unfold Worm Params PrevWorm head tail hset hH hT, rsquared_exact _ hM,
    sqDist_exact head PrevWorm.Head hb1, sqDist_exact tail PrevWorm.Tail hb2,
    sqDist_exact head PrevWorm.Tail hb3, sqDist_exact tail PrevWorm.Head hb4]
  rw [if_pos (Or.inl hhh), if_neg (by omega)]
  exact ⟨Worm, rfl, rfl, rfl, rfl, rfl, rfl⟩

/-- C11 (amended) at MaxLocationChange = 5, previous head (10,10) and tail (20,10), head
(100,100) and tail (200,200). -/
theorem PrevFrame_lost_witness :
    ∃ W', PrevFrameImproveWormHeadTail (trackedWorm ⟨100, 100⟩ ⟨200, 200⟩) (paramsOf 2 1 5)
        ⟨⟨10, 10⟩, ⟨20, 10⟩, 4, none⟩ = some (-1, W') ∧
      W'.Head = (trackedWorm ⟨100, 100⟩ ⟨200, 200⟩).Head ∧
      W'.Tail = (trackedWorm ⟨100, 100⟩ ⟨200, 200⟩).Tail ∧
      W'.HeadIndex = (trackedWorm ⟨100, 100⟩ ⟨200, 200⟩).HeadIndex ∧
      W'.TailIndex = (trackedWorm ⟨100, 100⟩ ⟨200, 200⟩).TailIndex ∧
      W'.TimeEvolution.WormVelBuffer
        = (trackedWorm ⟨100, 100⟩ ⟨200, 200⟩).TimeEvolution.WormVelBuffer :=
  PrevFrame_lost (trackedWorm ⟨100, 100⟩ ⟨200, 200⟩) (paramsOf 2 1 5)
    ⟨⟨10, 10⟩, ⟨20, 10⟩, 4, none⟩ ⟨100, 100⟩ ⟨200, 200⟩ (by decide) rfl rfl
    (by decide) (by decide) (by decide) (by decide)
    (by decide) (by decide) (by decide) (by decide)

/-! ## C12: No prior data -/

/-- C12: `PrevFrameImproveWormHeadTail` returns 2 exactly when one of Head.x, Head.y,
Tail.x, Tail.y and Perimeter of the previous geometry is zero, and the worm it then returns
is the worm it was given: Head, Tail, HeadIndex and TailIndex are unchanged. -/
theorem PrevFrame_noPriorData (Worm : WormAnalysisData) (Params : WormAnalysisParam)
    (PrevWorm : WormGeom) :
    ((∃ W', PrevFrameImproveWormHeadTail Worm Params PrevWorm = some (2, W')) ↔
      (PrevWorm.Head.x = 0 ∨ PrevWorm.Head.y = 0 ∨ PrevWorm.Tail.x = 0 ∨
        PrevWorm.Tail.y = 0 ∨ PrevWorm.Perimeter = 0)) ∧
    ∀ W', PrevFrameImproveWormHeadTail Worm Params PrevWorm = some (2, W') →
      W' = Worm ∧ W'.Head = Worm.Head ∧ W'.Tail = Worm.Tail ∧
        W'.HeadIndex = Worm.HeadIndex ∧ W'.TailIndex = Worm.TailIndex := by
  by_cases hg : PrevWorm.Head.x = 0 ∨ PrevWorm.Head.y = 0 ∨ PrevWorm.Tail.y = 0 ∨
      PrevWorm.Tail.x = 0 ∨ PrevWorm.Perimeter = 0
  · have hres : PrevFrameImproveWormHeadTail Worm Params PrevWorm = some (2, Worm) := by
      unfold PrevFrameImproveWormHeadTail
      rw [if_pos hg]
    refine ⟨⟨fun _ => by tauto, fun _ => ⟨Worm, hres⟩⟩, ?_⟩
    intro W' hW
    rw [hres] at hW
    cases hW
    exact ⟨rfl, rfl, rfl, rfl, rfl⟩
  · have hne : ∀ W', PrevFrameImproveWormHeadTail Worm Params PrevWorm ≠ some (2, W') := by
      intro W' hW
      unfold PrevFrameImproveWormHeadTail at hW
      rw [if_neg hg] at hW
      cases hH : Worm.Head <;> cases hT : Worm.Tail <;> simp only [hH, hT] at hW
      · cases hW
      · cases hW
      · cases hW
      · split_ifs at hW <;> simp at hW
    refine ⟨⟨fun ⟨W', hW⟩ => absurd hW (hne W'), fun h => absurd (by tauto) hg⟩, ?_⟩
    intro W' hW
    exact absurd hW (hne W')

/-! ## C13: Frame of the reversal -/

/-- C13: `ReverseWormHeadTail` leaves the Boundary, the Centerline and the segmented worm
(with its Centerline, LeftBound, RightBound, Head, Tail, centerOfWorm and NumSegments), and
also the time evolution and the centroid, as they were. -/
theorem ReverseWormHeadTail_frame (Worm : WormAnalysisData) :
    (ReverseWormHeadTail Worm).2.Boundary = Worm.Boundary ∧
    (ReverseWormHeadTail Worm).2.Centerline = Worm.Centerline ∧
    (ReverseWormHeadTail Worm).2.Segmented = Worm.Segmented ∧
    (ReverseWormHeadTail Worm).2.Segmented.Centerline = Worm.Segmented.Centerline ∧
    (ReverseWormHeadTail Worm).2.Segmented.LeftBound = Worm.Segmented.LeftBound ∧
    (ReverseWormHeadTail Worm).2.Segmented.RightBound = Worm.Segmented.RightBound ∧
    (ReverseWormHeadTail Worm).2.Segmented.Head = Worm.Segmented.Head ∧
    (ReverseWormHeadTail Worm).2.Segmented.Tail = Worm.Segmented.Tail ∧
    (ReverseWormHeadTail Worm).2.Segmented.centerOfWorm = Worm.Segmented.centerOfWorm ∧
    (ReverseWormHeadTail Worm).2.Segmented.NumSegments = Worm.Segmented.NumSegments ∧
    (ReverseWormHeadTail Worm).2.TimeEvolution = Worm.TimeEvolution ∧
    (ReverseWormHeadTail Worm).2.centroid = Worm.centroid := by
  unfold ReverseWormHeadTail
  split_ifs <;> simp

/-! ## C14: Degenerate split -/

/-- C14 (what the code does): on the four-point square with HeadIndex = 0, TailIndex = 1 and
NumSegments = 2, where the arc from the head to the tail has a single point, `SegmentWorm`
does not return -1: it reaches its end without a return value, having cleared the three
sequences. -/
theorem SegmentWorm_degenerate_split_not_reported :
    (wormOf squareBoundary (some ⟨0, 10⟩) (some ⟨10, 10⟩) 0 1).HeadIndex = 0 ∧
    (wormOf squareBoundary (some ⟨0, 10⟩) (some ⟨10, 10⟩) 0 1).TailIndex = 1 ∧
    squareParams.NumSegments = 2 ∧
    (SegmentWorm (fun _ => 1) (wormOf squareBoundary (some ⟨0, 10⟩) (some ⟨10, 10⟩) 0 1)
      squareParams).1 = none ∧
    (SegmentWorm (fun _ => 1) (wormOf squareBoundary (some ⟨0, 10⟩) (some ⟨10, 10⟩) 0 1)
      squareParams).1 ≠ some (-1) := by
  decide

/-! ## C15: Motion history -/

/-- Pushing on the last five of `vs` gives the last five of `vs ++ [v]`. -/
theorem PushToSeqBuffer_drop {α : Type} (vs : List α) (v : α) :
    PushToSeqBuffer (vs.drop (vs.length - 5)) v 5
      = (vs ++ [v]).drop ((vs ++ [v]).length - 5) := by
  unfold PushToSeqBuffer
  by_cases h : 5 ≤ vs.length
  · have h1 : (5 : Int) ≤ ((vs.drop (vs.length - 5)).length : Int) := by
      rw [List.length_drop]
      omega
    rw [if_pos h1, List.tail_drop, List.length_append, List.length_singleton]
    have h2 : vs.length + 1 - 5 = vs.length - 5 + 1 := by omega
    rw [h2, List.drop_append_of_le_length (by omega)]
  · have h1 : ¬ (5 : Int) ≤ ((vs.drop (vs.length - 5)).length : Int) := by
      rw [List.length_drop]
      omega
    rw [if_neg h1, List.length_append, List.length_singleton]
    have h2 : vs.length - 5 = 0 := by omega
    have h3 : vs.length + 1 - 5 = 0 := by omega
    rw [h2, h3]
    rfl

/-- The velocity buffer after `vs` holds the last five of `vs`. -/
theorem bufferAfter_eq (A_ERROR A_OK : Int) (Params : WormAnalysisParam)
    (vs : List CvPoint) :
    bufferAfter A_ERROR A_OK Params vs
      = some { WormVelBuffer := vs.drop (vs.length - 5), RecentAcceleration := cvPoint 0 0 } := by
  induction vs using List.reverseRecOn with
  | nil => rfl
  | append_singleton vs v ih =>
    unfold bufferAfter at ih ⊢
    rw [List.foldl_append, ih]
    simp only [List.foldl_cons, List.foldl_nil, AddWormMotionHistory]
    rw [PushToSeqBuffer_drop]

/-- C15: starting from the buffer of `CreateWormTimeEvolution`, after the velocities `vs`
were added by `AddWormMotionHistory` the velocity buffer holds at most 5 entries, namely
the last min(k,5) of the k velocities in the order they were added; and when it holds 5, one
more call removes the oldest entry and appends the new one. -/
theorem motionHistory_keeps_last_five (A_ERROR A_OK : Int) (Params : WormAnalysisParam) :
    (bufferAfter A_ERROR A_OK Params [] = some CreateWormTimeEvolution ∧
      CreateWormTimeEvolution.WormVelBuffer = []) ∧
    (∀ vs : List CvPoint, ∃ te, bufferAfter A_ERROR A_OK Params vs = some te ∧
      te.WormVelBuffer.length ≤ 5 ∧ te.WormVelBuffer.length = min vs.length 5 ∧
      te.WormVelBuffer = vs.drop (vs.length - 5)) ∧
    (∀ (vs : List CvPoint) (v : CvPoint) (te : WormTimeEvolution),
      bufferAfter A_ERROR A_OK Params vs = some te → te.WormVelBuffer.length = 5 →
      AddWormMotionHistory A_ERROR A_OK (some te) v (some Params)
        = (A_OK, bufferAfter A_ERROR A_OK Params (vs ++ [v])) ∧
      ∃ te', bufferAfter A_ERROR A_OK Params (vs ++ [v]) = some te' ∧
        te'.WormVelBuffer = te.WormVelBuffer.tail ++ [v]) := by
  refine ⟨⟨rfl, rfl⟩, ?_, ?_⟩
  · intro vs
    refine ⟨_, bufferAfter_eq A_ERROR A_OK Params vs, ?_, ?_, rfl⟩
    · show (vs.drop (vs.length - 5)).length ≤ 5
      rw [List.length_drop]
      omega
    · show (vs.drop (vs.length - 5)).length = min vs.length 5
      rw [List.length_drop]
      omega
  · intro vs v te hte hlen
    rw [bufferAfter_eq] at hte
    cases hte
    have hlen5 : (vs.drop (vs.length - 5)).length = 5 := hlen
    have hpush : PushToSeqBuffer (vs.drop (vs.length - 5)) v 5
        = (vs.drop (vs.length - 5)).tail ++ [v] := by
      unfold PushToSeqBuffer
      rw [if_pos (by omega)]
    refine ⟨?_, _, bufferAfter_eq A_ERROR A_OK Params (vs ++ [v]), ?_⟩
    · rw [bufferAfter_eq]
      simp only [AddWormMotionHistory]
      rw [PushToSeqBuffer_drop]
    · show (vs ++ [v]).drop ((vs ++ [v]).length - 5) = (vs.drop (vs.length - 5)).tail ++ [v]
      rw [← PushToSeqBuffer_drop, hpush]

/-! ## C16: Lengths of the segmented worm -/

/-- C16 (counterexample).  `twoSegments` has three sequences of 2 = NumSegments entries;
after `ClearSegmentedInfo` they have no entries and NumSegments is still 2.  After
`SegmentWorm` on the four-point square with NumSegments = 2 the three sequences have no
entries and NumSegments is 2. -/
theorem SegmentedWorm_lengths_not_NumSegments :
    ((twoSegments.Centerline.length : Int) = twoSegments.NumSegments ∧
      (twoSegments.LeftBound.length : Int) = twoSegments.NumSegments ∧
      (twoSegments.RightBound.length : Int) = twoSegments.NumSegments ∧
      (ClearSegmentedInfo twoSegments).Centerline.length = 0 ∧
      (ClearSegmentedInfo twoSegments).LeftBound.length = 0 ∧
      (ClearSegmentedInfo twoSegments).RightBound.length = 0 ∧
      (ClearSegmentedInfo twoSegments).NumSegments = 2) ∧
    ((SegmentWorm (fun _ => 1) squareWorm squareParams).2.Segmented.Centerline.length = 0 ∧
      (SegmentWorm (fun _ => 1) squareWorm squareParams).2.Segmented.LeftBound.length = 0 ∧
      (SegmentWorm (fun _ => 1) squareWorm squareParams).2.Segmented.RightBound.length = 0 ∧
      (SegmentWorm (fun _ => 1) squareWorm squareParams).2.Segmented.NumSegments = 2) := by
  decide

/-- C16 (amended): after `CreateSegmentedWormStruct` Centerline, LeftBound and RightBound all
have the length NumSegments (zero); after `ClearSegmentedInfo` the three have the same
length (zero) and NumSegments is what it was; and `SegmentWorm` keeps the three lengths
equal. -/
theorem SegmentedWorm_lengths_equal :
    (∀ Head Tail centerOfWorm : CvPoint,
      ((CreateSegmentedWormStruct Head Tail centerOfWorm).Centerline.length : Int)
        = (CreateSegmentedWormStruct Head Tail centerOfWorm).NumSegments ∧
      ((CreateSegmentedWormStruct Head Tail centerOfWorm).LeftBound.length : Int)
        = (CreateSegmentedWormStruct Head Tail centerOfWorm).NumSegments ∧
      ((CreateSegmentedWormStruct Head Tail centerOfWorm).RightBound.length : Int)
        = (CreateSegmentedWormStruct Head Tail centerOfWorm).NumSegments) ∧
    (∀ SegWorm : SegmentedWorm,
      (ClearSegmentedInfo SegWorm).Centerline.length
        = (ClearSegmentedInfo SegWorm).LeftBound.length ∧
      (ClearSegmentedInfo SegWorm).LeftBound.length
        = (ClearSegmentedInfo SegWorm).RightBound.length ∧
      (ClearSegmentedInfo SegWorm).RightBound.length = 0 ∧
      (ClearSegmentedInfo SegWorm).NumSegments = SegWorm.NumSegments) ∧
    (∀ (cvSeqExists : List CvPoint → Int) (Worm : WormAnalysisData)
        (Params : WormAnalysisParam),
      (Worm.Segmented.Centerline.length = Worm.Segmented.LeftBound.length ∧
        Worm.Segmented.LeftBound.length = Worm.Segmented.RightBound.length) →
      (SegmentWorm cvSeqExists Worm Params).2.Segmented.Centerline.length
        = (SegmentWorm cvSeqExists Worm Params).2.Segmented.LeftBound.length ∧
      (SegmentWorm cvSeqExists Worm Params).2.Segmented.LeftBound.length
        = (SegmentWorm cvSeqExists Worm Params).2.Segmented.RightBound.length) := by
  refine ⟨fun _ _ _ => ⟨rfl, rfl, rfl⟩, fun _ => ⟨rfl, rfl, rfl, rfl⟩, ?_⟩
  intro ex Worm Params h
  unfold SegmentWorm
  split_ifs
  · exact h
  · exact ⟨rfl, rfl⟩

/-! ## C17: Geometry snapshot -/

/-- On every snapshot that is not `NULL`, `LoadWormGeom` stores the boundary point count and
the centroid reference, and leaves the head and the tail at (0,0). -/
theorem LoadWormGeom_some (g : WormGeom) (Worm : WormAnalysisData) :
    LoadWormGeom (some g) Worm
      = some ⟨⟨0, 0⟩, ⟨0, 0⟩, (Worm.Boundary.length : Int), Worm.centroid⟩ := by
  rfl

/-- C17 (what the code does): for a worm with head (10,0), tail (0,10) and the four-point
square as boundary, the snapshot written by `LoadWormGeom` has perimeter 4 and the centroid
reference of the worm, but head (0,0) and tail (0,0) and not the head and the tail of the
worm. -/
theorem LoadWormGeom_leaves_head_tail_zero :
    (trackedWorm ⟨10, 0⟩ ⟨0, 10⟩).Head = some ⟨10, 0⟩ ∧
    (trackedWorm ⟨10, 0⟩ ⟨0, 10⟩).Tail = some ⟨0, 10⟩ ∧
    LoadWormGeom (some ⟨⟨7, 7⟩, ⟨9, 9⟩, 3, none⟩) (trackedWorm ⟨10, 0⟩ ⟨0, 10⟩)
      = some ⟨⟨0, 0⟩, ⟨0, 0⟩, 4, (trackedWorm ⟨10, 0⟩ ⟨0, 10⟩).centroid⟩ := by
  decide

/-! ## Lemmas on the curvature profile and the two searches -/

/-- An iteration of the curvature loop pushes what `curvatureAt` computes. -/
theorem curvatureBody_eq (Boundary : List CvPoint) (LengthScale : Int)
    (s : List Int × List Int) (i : Nat) :
    curvatureBody Boundary LengthScale s i
      = (curvatureAt Boundary LengthScale i).map (fun p => (s.1 ++ [p.1], s.2 ++ [p.2])) := by
  rcases h1 : cvGetSeqElem Boundary (AheadPtr (Boundary.length : Int) LengthScale i)
    with _ | pa <;>
  rcases h2 : cvGetSeqElem Boundary (Int.tmod (i : Int) (Boundary.length : Int))
    with _ | pp <;>
  rcases h3 : cvGetSeqElem Boundary (BehindPtr (Boundary.length : Int) LengthScale i)
    with _ | pb <;>
  · unfold curvatureBody curvatureAt
    simp only [h1, h2, h3, Option.map]

/-- The curvature loop completes, and entry `j` of the two sequences is what `curvatureAt`
computes at `j`. -/
theorem curvatureLoop_getElem (Boundary : List CvPoint) (LengthScale : Int)
    (hmax : Boundary.length ≤ 1073741824) :
    ∃ D C, curvatureLoop Boundary LengthScale = some (D, C) ∧ D.length = Boundary.length ∧
      C.length = Boundary.length ∧
      ∀ j, j < Boundary.length → ∃ p, curvatureAt Boundary LengthScale j = some p ∧
        D[j]? = some p.1 ∧ C[j]? = some p.2 := by
  unfold curvatureLoop
  rw [if_neg (Nat.not_lt.mpr hmax)]
  have key := forLoop_inv (curvatureBody Boundary LengthScale) ([], [])
    (fun n s => s.1.length = n ∧ s.2.length = n ∧
      ∀ j, j < n → ∃ p, curvatureAt Boundary LengthScale j = some p ∧
        s.1[j]? = some p.1 ∧ s.2[j]? = some p.2)
    Boundary.length ⟨rfl, rfl, fun j hj => absurd hj (Nat.not_lt_zero j)⟩ ?_ Boundary.length
    (le_refl _)
  · obtain ⟨⟨D, C⟩, hs, h1, h2, h3⟩ := key
    exact ⟨D, C, hs, h1, h2, h3⟩
  · intro i s hi hinv
    obtain ⟨h1, h2, h3⟩ := hinv
    have hpos : 0 < Boundary.length := by omega
    obtain ⟨pa, ha⟩ : ∃ p, cvGetSeqElem Boundary
        (AheadPtr (Boundary.length : Int) LengthScale i) = some p :=
      cvGetSeqElem_tmod Boundary (wrapInt ((i : Int) + LengthScale)) hpos
    obtain ⟨pp, hp⟩ := cvGetSeqElem_tmod Boundary (i : Int) hpos
    obtain ⟨pb, hb⟩ : ∃ p, cvGetSeqElem Boundary
        (BehindPtr (Boundary.length : Int) LengthScale i) = some p :=
      cvGetSeqElem_tmod Boundary
        (wrapInt (wrapInt ((i : Int) + (Boundary.length : Int)) - LengthScale)) hpos
    have hat : curvatureAt Boundary LengthScale i
        = some (PointDot (cvPoint (wrapInt (pa.x - pp.x)) (wrapInt (pa.y - pp.y)))
            (cvPoint (wrapInt (pp.x - pb.x)) (wrapInt (pp.y - pb.y))),
          PointCross (cvPoint (wrapInt (pa.x - pp.x)) (wrapInt (pa.y - pp.y)))
            (cvPoint (wrapInt (pp.x - pb.x)) (wrapInt (pp.y - pb.y)))) := by
      unfold curvatureAt
      simp only [ha, hp, hb]
    rw [curvatureBody_eq, hat]
    refine ⟨_, rfl, ?_, ?_, ?_⟩
    · simp [h1]
    · simp [h2]
    · intro j hj
      rcases Nat.lt_succ_iff_lt_or_eq.mp hj with hlt | heq
      · obtain ⟨p, hp1, hp2, hp3⟩ := h3 j hlt
        refine ⟨p, hp1, ?_, ?_⟩
        · show (s.1 ++ [_])[j]? = some p.1
          rw [List.getElem?_append_left (by omega)]
          exact hp2
        · show (s.2 ++ [_])[j]? = some p.2
          rw [List.getElem?_append_left (by omega)]
          exact hp3
      · subst heq
        refine ⟨_, hat, ?_, ?_⟩
        · show (s.1 ++ [_])[j]? = some _
          rw [List.getElem?_append_right (by omega)]
          simp [h1]
        · show (s.2 ++ [_])[j]? = some _
          rw [List.getElem?_append_right (by omega)]
          simp [h2]

/-- An index in `[0, total)` reads the element at that position. -/
theorem cvGetSeqElem_toNat {α : Type} (l : List α) (i : Int)
    (h : 0 ≤ i ∧ i < (l.length : Int)) : cvGetSeqElem l i = l[i.toNat]? := by
  have hi : i.toNat < l.length := by omega
  have e : ((i.toNat : Nat) : Int) = i := by omega
  have key := cvGetSeqElem_natCast l i.toNat hi
  rw [e] at key
  rw [key, List.getElem?_eq_getElem hi]

/-- What the two searches select when every dot product converts to `float` exactly: both
indices are in range; if some index has positive cross product and a dot product below
1000, the tail index is the first index of least dot product among those of positive cross
product; and if some such index is at circular distance above L/4 from the tail index, the
head index is one of least dot product among those. -/
theorem GivenBoundaryFindWormHeadTail_selection (Worm : WormAnalysisData)
    (Params : WormAnalysisParam) (D C : List Int) (hpos : 0 < Worm.Boundary.length)
    (hN : ¬ (Worm.Boundary.length : Int) < wrapInt (2 * Params.NumSegments))
    (hprof : curvatureLoop Worm.Boundary Params.LengthScale = some (D, C))
    (hexact : ∀ d ∈ D, -16777216 < d ∧ d < 16777216) :
    ∃ t h : Int,
      GivenBoundaryFindWormHeadTail Worm Params = some (0, { Worm with
        Tail := cvGetSeqElem Worm.Boundary t
        TailIndex := t
        Head := cvGetSeqElem Worm.Boundary h
        HeadIndex := h }) ∧
      0 ≤ t ∧ t < (Worm.Boundary.length : Int) ∧ 0 ≤ h ∧ h < (Worm.Boundary.length : Int) ∧
      ((∃ (i : Nat) (d c : Int), D[i]? = some d ∧ C[i]? = some c ∧ 0 < c ∧ d < 1000) →
        ∃ (tn : Nat) (dt ct : Int), t = (tn : Int) ∧ D[tn]? = some dt ∧ C[tn]? = some ct ∧
          0 < ct ∧
          (∀ (j : Nat) (dj cj : Int), D[j]? = some dj → C[j]? = some cj → 0 < cj → dt ≤ dj) ∧
          (∀ (j : Nat) (dj cj : Int), D[j]? = some dj → C[j]? = some cj → 0 < cj →
            dj ≤ dt → tn ≤ j)) ∧
      ((∃ (i : Nat) (d c : Int), D[i]? = some d ∧ C[i]? = some c ∧ 0 < c ∧ d < 1000 ∧
          DistBetPtsOnCircBound (Worm.Boundary.length : Int) (i : Int) t
            > (Worm.Boundary.length : Int) / 4) →
        ∃ (hn : Nat) (dh ch : Int), h = (hn : Int) ∧ D[hn]? = some dh ∧ C[hn]? = some ch ∧
          0 < ch ∧
          DistBetPtsOnCircBound (Worm.Boundary.length : Int) (hn : Int) t
            > (Worm.Boundary.length : Int) / 4 ∧
          ∀ (j : Nat) (dj cj : Int), D[j]? = some dj → C[j]? = some cj → 0 < cj →
            DistBetPtsOnCircBound (Worm.Boundary.length : Int) (j : Int) t
              > (Worm.Boundary.length : Int) / 4 → dh ≤ dj) := by
  have hmax := curvatureLoop_bound _ _ _ hprof
  obtain ⟨D', C', m, t, m2, h, hcurv, hDl, _, htinv, hhinv, hres⟩ :=
    GivenBoundaryFindWormHeadTail_success Worm Params hpos hmax hN
  rw [hprof] at hcurv
  cases hcurv
  have e4 : Int.tdiv (Worm.Boundary.length : Int) 4 = (Worm.Boundary.length : Int) / 4 :=
    Int.tdiv_eq_ediv (by omega) (by decide)
  rw [e4] at hhinv
  have ht := SearchInv_index_range D C _ 0 _ (m, t) htinv (by omega)
  simp only at ht
  obtain ⟨e1, hf0, hf1, _⟩ := fallback_index t (Worm.Boundary.length : Int) ht (by omega)
  have hh := SearchInv_index_range D C _ _ _ (m2, h) hhinv (by rw [e1]; exact ⟨hf0, hf1⟩)
  simp only at hh
  have hlt : ∀ (j : Nat) (dj : Int), D[j]? = some dj → j < Worm.Boundary.length := by
    intro j dj hdj
    have := (List.getElem?_eq_some.mp hdj).1
    omega
  have hfl : ∀ (j : Nat) (dj : Int), D[j]? = some dj → floatOfInt dj = dj := by
    intro j dj hdj
    exact floatOfInt_exact dj (hexact dj (List.getElem?_mem hdj))
  refine ⟨t, h, hres, ht.1, ht.2, hh.1, hh.2, ?_, ?_⟩
  · rintro ⟨i, d, c, hd, hc, hcpos, hd1000⟩
    obtain ⟨_, h2, h3, _⟩ := htinv
    have hmd := h2 i d c (hlt i d hd) trivial hd hc hcpos
    rw [hfl i d hd] at hmd
    obtain ⟨k, dk, ck, _, hk, _, hdk, hck, hckpos, hfk, hfirst⟩ := h3 (by simp only; omega)
    rw [hfl k dk hdk] at hfk
    simp only at hmd hfk hfirst hk
    refine ⟨k, dk, ck, hk, hdk, hck, hckpos, ?_, ?_⟩
    · intro j dj cj hdj hcj hcjpos
      have hmj := h2 j dj cj (hlt j dj hdj) trivial hdj hcj hcjpos
      rw [hfl j dj hdj] at hmj
      simp only at hmj
      omega
    · intro j dj cj hdj hcj hcjpos hle
      by_contra hjk
      have hmj := hfirst j dj cj (by omega) trivial hdj hcj hcjpos
      rw [hfl j dj hdj] at hmj
      omega
  · rintro ⟨i, d, c, hd, hc, hcpos, hd1000, hdist⟩
    obtain ⟨_, h2, h3, _⟩ := hhinv
    have hmd := h2 i d c (hlt i d hd) hdist hd hc hcpos
    rw [hfl i d hd] at hmd
    obtain ⟨k, dk, ck, _, hk, helk, hdk, hck, hckpos, hfk, _⟩ := h3 (by simp only; omega)
    rw [hfl k dk hdk] at hfk
    simp only at hmd hfk hk
    refine ⟨k, dk, ck, hk, hdk, hck, hckpos, helk, ?_⟩
    intro j dj cj hdj hcj hcjpos hjdist
    have hmj := h2 j dj cj (hlt j dj hdj) hjdist hdj hcj hcjpos
    rw [hfl j dj hdj] at hmj
    simp only at hmj
    omega

/-! ## C18: Ties in the tail search -/

/-- The curvature loop on a boundary of length 0 < L ≤ 2^30 with 0 ≤ LengthScale ≤ L: the
indices it computes, the points it reads and the entries it pushes. -/
theorem curvatureLoop_entries (Boundary : List CvPoint) (LengthScale : Int)
    (hL : 0 < Boundary.length) (hmax : Boundary.length ≤ 1073741824)
    (hLS0 : 0 ≤ LengthScale) (hLS : LengthScale ≤ (Boundary.length : Int)) :
    ∃ D C, curvatureLoop Boundary LengthScale = some (D, C) ∧
      D.length = Boundary.length ∧ C.length = Boundary.length ∧
      ∀ i : Nat, i < Boundary.length →
        (AheadPtr (Boundary.length : Int) LengthScale i
            = ((i : Int) + LengthScale) % (Boundary.length : Int) ∧
          0 ≤ AheadPtr (Boundary.length : Int) LengthScale i ∧
          AheadPtr (Boundary.length : Int) LengthScale i < (Boundary.length : Int)) ∧
        (BehindPtr (Boundary.length : Int) LengthScale i
            = ((i : Int) - LengthScale) % (Boundary.length : Int) ∧
          0 ≤ BehindPtr (Boundary.length : Int) LengthScale i ∧
          BehindPtr (Boundary.length : Int) LengthScale i < (Boundary.length : Int)) ∧
        ∃ AheadPt Pt BehindPt : CvPoint,
          cvGetSeqElem Boundary (AheadPtr (Boundary.length : Int) LengthScale i)
            = some AheadPt ∧
          Boundary[(((i : Int) + LengthScale) % (Boundary.length : Int)).toNat]?
            = some AheadPt ∧
          Boundary[i]? = some Pt ∧
          cvGetSeqElem Boundary (BehindPtr (Boundary.length : Int) LengthScale i)
            = some BehindPt ∧
          Boundary[(((i : Int) - LengthScale) % (Boundary.length : Int)).toNat]?
            = some BehindPt ∧
          D[i]? = some (PointDot
            (cvPoint (wrapInt (AheadPt.x - Pt.x)) (wrapInt (AheadPt.y - Pt.y)))
            (cvPoint (wrapInt (Pt.x - BehindPt.x)) (wrapInt (Pt.y - BehindPt.y)))) ∧
          C[i]? = some (PointCross
            (cvPoint (wrapInt (AheadPt.x - Pt.x)) (wrapInt (AheadPt.y - Pt.y)))
            (cvPoint (wrapInt (Pt.x - BehindPt.x)) (wrapInt (Pt.y - BehindPt.y)))) := by
  obtain ⟨D, C, hcurv, hDl, hCl, hget⟩ := curvatureLoop_getElem Boundary LengthScale hmax
  refine ⟨D, C, hcurv, hDl, hCl, ?_⟩
  intro i hi
  have hLpos : (0 : Int) < (Boundary.length : Int) := by omega
  have eA : AheadPtr (Boundary.length : Int) LengthScale i
      = ((i : Int) + LengthScale) % (Boundary.length : Int) := by
    unfold AheadPtr
    rw [wrapInt_eq _ (by omega)]
    exact Int.tmod_eq_emod (by omega) (by omega)
  have eB : BehindPtr (Boundary.length : Int) LengthScale i
      = ((i : Int) - LengthScale) % (Boundary.length : Int) := by
    unfold BehindPtr
    rw [wrapInt_eq ((i : Int) + (Boundary.length : Int)) (by omega), wrapInt_eq _ (by omega),
      Int.tmod_eq_emod (by omega) (by omega)]
    have e : (i : Int) + (Boundary.length : Int) - LengthScale
        = ((i : Int) - LengthScale) + (Boundary.length : Int) := by ring
    rw [e, Int.add_emod_self]
  have eP : Int.tmod (i : Int) (Boundary.length : Int) = (i : Int) :=
    Int.tmod_eq_of_lt (by omega) (by omega)
  have rA0 := Int.emod_nonneg ((i : Int) + LengthScale) (ne_of_gt hLpos)
  have rA1 := Int.emod_lt_of_pos ((i : Int) + LengthScale) hLpos
  have rB0 := Int.emod_nonneg ((i : Int) - LengthScale) (ne_of_gt hLpos)
  have rB1 := Int.emod_lt_of_pos ((i : Int) - LengthScale) hLpos
  refine ⟨⟨eA, by rw [eA]; exact rA0, by rw [eA]; exact rA1⟩,
    ⟨eB, by rw [eB]; exact rB0, by rw [eB]; exact rB1⟩, ?_⟩
  obtain ⟨p, hat, hD, hC⟩ := hget i hi
  have hAi : (((i : Int) + LengthScale) % (Boundary.length : Int)).toNat < Boundary.length := by
    omega
  have hBi : (((i : Int) - LengthScale) % (Boundary.length : Int)).toNat < Boundary.length := by
    omega
  have gA := List.getElem?_eq_getElem hAi
  have gP := List.getElem?_eq_getElem hi
  have gB := List.getElem?_eq_getElem hBi
  have cA : cvGetSeqElem Boundary (AheadPtr (Boundary.length : Int) LengthScale i)
      = some Boundary[(((i : Int) + LengthScale) % (Boundary.length : Int)).toNat] := by
    rw [eA, cvGetSeqElem_toNat Boundary _ ⟨rA0, rA1⟩, gA]
  have cB : cvGetSeqElem Boundary (BehindPtr (Boundary.length : Int) LengthScale i)
      = some Boundary[(((i : Int) - LengthScale) % (Boundary.length : Int)).toNat] := by
    rw [eB, cvGetSeqElem_toNat Boundary _ ⟨rB0, rB1⟩, gB]
  unfold curvatureAt at hat
  simp only [cA, cB, eP, cvGetSeqElem_natCast Boundary i hi] at hat
  cases hat
  exact ⟨_, _, _, cA, gA, gP, cB, gB, hD, hC⟩

/-! ## C19: The square contour -/

set_option maxRecDepth 100000 in
/-- Along the square every dot product is in [0, 1000), it is zero only at the corners, and
at the corners the cross product is positive. -/
theorem squareDot_facts :
    ∀ k, k < 400 → (0 ≤ squareDot k ∧ squareDot k < 1000 ∧ (squareDot k ≤ 0 → k % 100 = 0) ∧
      (k % 100 = 0 → squareDot k = 0 ∧ 0 < squareCross k) ∧
      (squarePoint 0 0 k ∈ squareCorners 0 0 ↔ k % 100 = 0)) := by
  decide

/-- The contour has 400 points. -/
theorem squareContour_length (x0 y0 : Int) (start : Nat) :
    (squareContour x0 y0 start).length = 400 := by
  simp [squareContour]

/-- Point `j` of the contour is at position `(j + start) mod 400` of the perimeter. -/
theorem squareContour_getElem (x0 y0 : Int) (start j : Nat) (hj : j < 400) :
    (squareContour x0 y0 start)[j]? = some (squarePoint x0 y0 ((j + start) % 400)) := by
  unfold squareContour
  rw [List.getElem?_map, List.getElem?_range hj]
  rfl

/-- The square at `(x0, y0)` is the square at the origin, translated. -/
theorem squarePoint_translate (x0 y0 : Int) (k : Nat) :
    squarePoint x0 y0 k = ⟨x0 + (squarePoint 0 0 k).x, y0 + (squarePoint 0 0 k).y⟩ := by
  unfold squarePoint
  split_ifs <;> simp

/-- A position of the perimeter is a corner exactly when it is a multiple of 100. -/
theorem squarePoint_corner_iff (x0 y0 : Int) (k : Nat) (hk : k < 400) :
    squarePoint x0 y0 k ∈ squareCorners x0 y0 ↔ k % 100 = 0 := by
  rw [← (squareDot_facts k hk).2.2.2.2, squarePoint_translate x0 y0 k]
  generalize squarePoint 0 0 k = p
  cases p
  simp [squareCorners]

/-- The curvature profile of the contour for the length scale 30: entry `j` is the dot and
the cross product at position `(j + start) mod 400` of the square at the origin. -/
theorem squareContour_profile (x0 y0 : Int) (start : Nat) (D C : List Int)
    (hprof : curvatureLoop (squareContour x0 y0 start) 30 = some (D, C)) :
    ∀ j, j < 400 → D[j]? = some (squareDot ((j + start) % 400)) ∧
      C[j]? = some (squareCross ((j + start) % 400)) := by
  have hlen := squareContour_length x0 y0 start
  obtain ⟨D', C', hc, _, _, hall⟩ := curvatureLoop_entries (squareContour x0 y0 start) 30
    (by omega) (by omega) (by decide) (by omega)
  rw [hprof] at hc
  cases hc
  intro j hj
  obtain ⟨_, _, A, P, B, _, hA, hP, _, hB, hD, hC⟩ := hall j (by omega)
  rw [hlen] at hA hB
  simp only [Nat.cast_ofNat] at hA hB
  have hiA : (((j : Int) + 30) % 400).toNat < 400 := by omega
  have hiB : (((j : Int) - 30) % 400).toNat < 400 := by omega
  rw [squareContour_getElem x0 y0 start _ hiA] at hA
  rw [squareContour_getElem x0 y0 start _ hiB] at hB
  rw [squareContour_getElem x0 y0 start j hj] at hP
  have eA : ((((j : Int) + 30) % 400).toNat + start) % 400 = ((j + start) % 400 + 30) % 400 := by
    omega
  have eB : ((((j : Int) - 30) % 400).toNat + start) % 400 = ((j + start) % 400 + 370) % 400 := by
    omega
  rw [eA] at hA
  rw [eB] at hB
  cases hA
  cases hP
  cases hB
  rw [hD, hC]
  rw [squarePoint_translate x0 y0 ((j + start) % 400),
    squarePoint_translate x0 y0 (((j + start) % 400 + 30) % 400),
    squarePoint_translate x0 y0 (((j + start) % 400 + 370) % 400)]
  constructor <;> simp only [squareDot, squareCross, add_sub_add_left_eq_sub]

/-- The point 200 positions further along a contour of 400 points is at circular
distance 200. -/
theorem dist_opposite (t : Nat) (ht : t < 400) :
    DistBetPtsOnCircBound 400 (((t + 200) % 400 : Nat) : Int) (t : Int) = 200 := by
  unfold DistBetPtsOnCircBound
  rcases abs_cases ((((t + 200) % 400 : Nat) : Int) - (t : Int)) with ⟨h1, h2⟩ | ⟨h1, h2⟩
  · rw [h1]
    have e : (((t + 200) % 400 : Nat) : Int) - (t : Int) = 200 := by omega
    rw [e]
    decide
  · rw [h1]
    have e : -((((t + 200) % 400 : Nat) : Int) - (t : Int)) = 200 := by omega
    rw [e]
    decide

/-- C19: for the square contour of 400 points (100 a side, walked so that the cross
products at its corners are positive, placed anywhere and started anywhere on its
perimeter), with LengthScale = 30 and NumSegments = 50, `GivenBoundaryFindWormHeadTail`
returns 0, the tail index is the index of one of the four corner points, and the head index
is the index of a corner point at circular distance above 100 from the tail index. -/
theorem squareContour_head_tail (x0 y0 : Int) (start : Nat) :
    (squareContour x0 y0 start).length = 400 ∧
    ∃ (W' : WormAnalysisData) (D C : List Int) (t h : Nat) (pt ph : CvPoint),
      curvatureLoop (squareContour x0 y0 start) 30 = some (D, C) ∧
      (∀ (j : Nat) (p : CvPoint) (c : Int), (squareContour x0 y0 start)[j]? = some p →
        p ∈ squareCorners x0 y0 → C[j]? = some c → 0 < c) ∧
      GivenBoundaryFindWormHeadTail (wormOf (squareContour x0 y0 start) none none 0 0)
        (paramsOf 50 30 70) = some (0, W') ∧
      W'.TailIndex = (t : Int) ∧ (squareContour x0 y0 start)[t]? = some pt ∧
      pt ∈ squareCorners x0 y0 ∧
      W'.HeadIndex = (h : Int) ∧ (squareContour x0 y0 start)[h]? = some ph ∧
      ph ∈ squareCorners x0 y0 ∧
      DistBetPtsOnCircBound 400 (h : Int) (t : Int) > 100 := by
  have hlen := squareContour_length x0 y0 start
  refine ⟨hlen, ?_⟩
  obtain ⟨D, C, hcurv, hDl, hCl⟩ := curvatureLoop_some (squareContour x0 y0 start) 30
    (by omega)
  have hprofile := squareContour_profile x0 y0 start D C hcurv
  have hlt : ∀ (j : Nat) (dj : Int), D[j]? = some dj → j < 400 := by
    intro j dj hdj
    have := (List.getElem?_eq_some.mp hdj).1
    omega
  have hval : ∀ (j : Nat) (dj : Int), D[j]? = some dj → dj = squareDot ((j + start) % 400) := by
    intro j dj hdj
    have h1 := (hprofile j (hlt j dj hdj)).1
    rw [hdj] at h1
    exact Option.some.inj h1
  have hexact : ∀ d ∈ D, -16777216 < d ∧ d < 16777216 := by
    intro d hd
    obtain ⟨j, hj⟩ := List.mem_iff_getElem?.mp hd
    rw [hval j d hj]
    have hf := squareDot_facts ((j + start) % 400) (Nat.mod_lt _ (by decide))
    omega
  obtain ⟨t, h, hres, _, _, _, _, htail, hhead⟩ :=
    GivenBoundaryFindWormHeadTail_selection (wormOf (squareContour x0 y0 start) none none 0 0)
      (paramsOf 50 30 70) D C
      (by show 0 < (squareContour x0 y0 start).length; omega)
      (lengthTest_passes _ _ (by decide)
        (by show 2 * 50 ≤ ((squareContour x0 y0 start).length : Int); omega))
      hcurv hexact
  have hWB : (wormOf (squareContour x0 y0 start) none none 0 0).Boundary.length = 400 := hlen
  rw [hWB] at hhead
  have e100 : ((400 : Nat) : Int) / 4 = 100 := by decide
  rw [e100] at hhead
  -- the first corner of the contour
  have hk0 : (((400 - start % 400) % 400 + start) % 400) % 100 = 0 := by omega
  have hf0 := squareDot_facts (((400 - start % 400) % 400 + start) % 400)
    (Nat.mod_lt _ (by decide))
  have hp0 := hprofile ((400 - start % 400) % 400) (Nat.mod_lt _ (by decide))
  obtain ⟨tn, dt, ct, htn, hdt, _, _, hmin, _⟩ := htail
    ⟨(400 - start % 400) % 400, _, _, hp0.1, hp0.2, (hf0.2.2.2.1 hk0).2, by
      rw [(hf0.2.2.2.1 hk0).1]; decide⟩
  have htn400 := hlt tn dt hdt
  have hdt0 : dt ≤ 0 := by
    have := hmin _ _ _ hp0.1 hp0.2 (hf0.2.2.2.1 hk0).2
    rw [(hf0.2.2.2.1 hk0).1] at this
    exact this
  have hft := squareDot_facts ((tn + start) % 400) (Nat.mod_lt _ (by decide))
  have hkt : ((tn + start) % 400) % 100 = 0 := by
    apply hft.2.2.1
    rw [← hval tn dt hdt]
    exact hdt0
  -- the opposite corner
  have hk1 : ((((tn + 200) % 400) + start) % 400) % 100 = 0 := by omega
  have hf1 := squareDot_facts ((((tn + 200) % 400) + start) % 400) (Nat.mod_lt _ (by decide))
  have hp1 := hprofile ((tn + 200) % 400) (Nat.mod_lt _ (by decide))
  have hd1 : DistBetPtsOnCircBound ((400 : Nat) : Int) (((tn + 200) % 400 : Nat) : Int) t
      > 100 := by
    rw [htn]
    have := dist_opposite tn htn400
    simp only [Nat.cast_ofNat]
    rw [this]
    decide
  obtain ⟨hn, dh, ch, hhn, hdh, _, _, hdist, hminh⟩ := hhead
    ⟨(tn + 200) % 400, _, _, hp1.1, hp1.2, (hf1.2.2.2.1 hk1).2, by
      rw [(hf1.2.2.2.1 hk1).1]; decide, hd1⟩
  have hhn400 := hlt hn dh hdh
  have hdh0 : dh ≤ 0 := by
    have := hminh _ _ _ hp1.1 hp1.2 (hf1.2.2.2.1 hk1).2 hd1
    rw [(hf1.2.2.2.1 hk1).1] at this
    exact this
  have hfh := squareDot_facts ((hn + start) % 400) (Nat.mod_lt _ (by decide))
  have hkh : ((hn + start) % 400) % 100 = 0 := by
    apply hfh.2.2.1
    rw [← hval hn dh hdh]
    exact hdh0
  refine ⟨_, D, C, tn, hn, squarePoint x0 y0 ((tn + start) % 400),
    squarePoint x0 y0 ((hn + start) % 400), hcurv, ?_, hres, htn, ?_, ?_, hhn, ?_, ?_, ?_⟩
  · intro j p c hp hpc hc
    have hj : j < 400 := by
      have := (List.getElem?_eq_some.mp hp).1
      omega
    rw [squareContour_getElem x0 y0 start j hj] at hp
    cases hp
    have hk := (squarePoint_corner_iff x0 y0 ((j + start) % 400)
      (Nat.mod_lt _ (by decide))).mp hpc
    have hfj := squareDot_facts ((j + start) % 400) (Nat.mod_lt _ (by decide))
    have hcj := (hprofile j hj).2
    rw [hc] at hcj
    cases hcj
    exact (hfj.2.2.2.1 hk).2
  · exact squareContour_getElem x0 y0 start tn htn400
  · exact (squarePoint_corner_iff x0 y0 _ (Nat.mod_lt _ (by decide))).mpr hkt
  · exact squareContour_getElem x0 y0 start hn hhn400
  · exact (squarePoint_corner_iff x0 y0 _ (Nat.mod_lt _ (by decide))).mpr hkh
  · rw [htn] at hdist
    simpa using hdist

/-! ## C20: Indices read by the curvature loop -/

/-- C20 (counterexample): on a boundary of L = 2^30 + 1 points with LengthScale = 1, so that
0 ≤ LengthScale ≤ L, the sum `i+TotalBPts` of iteration i = 2^30 is 2^31 + 1, which as an
`int` is -2^31 + 1: the index computed behind is -1073741823, which is neither in [0, L)
nor (i − LengthScale) mod L = 1073741823. -/
theorem curvatureLoop_behind_index_overflows :
    (0 : Int) ≤ 1 ∧ (1 : Int) ≤ 1073741825 ∧ (1073741824 : Nat) < 1073741825 ∧
    wrapInt (((1073741824 : Nat) : Int) + 1073741825) = -2147483647 ∧
    BehindPtr 1073741825 1 1073741824 = -1073741823 ∧
    (((1073741824 : Nat) : Int) - 1) % 1073741825 = 1073741823 := by
  decide

/-- C20 (amended): on a boundary of length 0 < L ≤ 2^30 with 0 ≤ LengthScale ≤ L the
curvature loop completes with L dot products and L cross products; in iteration i the index
it computes ahead is (i + LengthScale) mod L and the one behind is (i − LengthScale) mod L,
both in [0, L), and the points it reads there are P[(i + LengthScale) mod L] and
P[(i − LengthScale) mod L]; and entry i of the two sequences is the dot and the cross
product, in `int` arithmetic, of the forward vector P[(i + LengthScale) mod L] − P[i] and
the backward vector P[i] − P[(i − LengthScale) mod L]. -/
theorem curvatureLoop_indices (Boundary : List CvPoint) (LengthScale : Int)
    (hL : 0 < Boundary.length) (hmax : Boundary.length ≤ 1073741824)
    (hLS0 : 0 ≤ LengthScale) (hLS : LengthScale ≤ (Boundary.length : Int)) :
    ∃ D C, curvatureLoop Boundary LengthScale = some (D, C) ∧
      D.length = Boundary.length ∧ C.length = Boundary.length ∧
      ∀ i : Nat, i < Boundary.length →
        (AheadPtr (Boundary.length : Int) LengthScale i
            = ((i : Int) + LengthScale) % (Boundary.length : Int) ∧
          0 ≤ AheadPtr (Boundary.length : Int) LengthScale i ∧
          AheadPtr (Boundary.length : Int) LengthScale i < (Boundary.length : Int)) ∧
        (BehindPtr (Boundary.length : Int) LengthScale i
            = ((i : Int) - LengthScale) % (Boundary.length : Int) ∧
          0 ≤ BehindPtr (Boundary.length : Int) LengthScale i ∧
          BehindPtr (Boundary.length : Int) LengthScale i < (Boundary.length : Int)) ∧
        ∃ AheadPt Pt BehindPt : CvPoint,
          cvGetSeqElem Boundary (AheadPtr (Boundary.length : Int) LengthScale i)
            = some AheadPt ∧
          Boundary[(((i : Int) + LengthScale) % (Boundary.length : Int)).toNat]?
            = some AheadPt ∧
          Boundary[i]? = some Pt ∧
          cvGetSeqElem Boundary (BehindPtr (Boundary.length : Int) LengthScale i)
            = some BehindPt ∧
          Boundary[(((i : Int) - LengthScale) % (Boundary.length : Int)).toNat]?
            = some BehindPt ∧
          D[i]? = some (PointDot
            (cvPoint (wrapInt (AheadPt.x - Pt.x)) (wrapInt (AheadPt.y - Pt.y)))
            (cvPoint (wrapInt (Pt.x - BehindPt.x)) (wrapInt (Pt.y - BehindPt.y)))) ∧
          C[i]? = some (PointCross
            (cvPoint (wrapInt (AheadPt.x - Pt.x)) (wrapInt (AheadPt.y - Pt.y)))
            (cvPoint (wrapInt (Pt.x - BehindPt.x)) (wrapInt (Pt.y - BehindPt.y)))) :=
  curvatureLoop_entries Boundary LengthScale hL hmax hLS0 hLS

/-- C20 (amended) at the four-point square with LengthScale = 1. -/
theorem curvatureLoop_indices_witness :
    ∃ D C, curvatureLoop squareBoundary 1 = some (D, C) ∧
      D.length = squareBoundary.length ∧ C.length = squareBoundary.length ∧
      ∀ i : Nat, i < squareBoundary.length →
        (AheadPtr (squareBoundary.length : Int) 1 i
            = ((i : Int) + 1) % (squareBoundary.length : Int) ∧
          0 ≤ AheadPtr (squareBoundary.length : Int) 1 i ∧
          AheadPtr (squareBoundary.length : Int) 1 i < (squareBoundary.length : Int)) ∧
        (BehindPtr (squareBoundary.length : Int) 1 i
            = ((i : Int) - 1) % (squareBoundary.length : Int) ∧
          0 ≤ BehindPtr (squareBoundary.length : Int) 1 i ∧
          BehindPtr (squareBoundary.length : Int) 1 i < (squareBoundary.length : Int)) ∧
        ∃ AheadPt Pt BehindPt : CvPoint,
          cvGetSeqElem squareBoundary (AheadPtr (squareBoundary.length : Int) 1 i)
            = some AheadPt ∧
          squareBoundary[(((i : Int) + 1) % (squareBoundary.length : Int)).toNat]?
            = some AheadPt ∧
          squareBoundary[i]? = some Pt ∧
          cvGetSeqElem squareBoundary (BehindPtr (squareBoundary.length : Int) 1 i)
            = some BehindPt ∧
          squareBoundary[(((i : Int) - 1) % (squareBoundary.length : Int)).toNat]?
            = some BehindPt ∧
          D[i]? = some (PointDot
            (cvPoint (wrapInt (AheadPt.x - Pt.x)) (wrapInt (AheadPt.y - Pt.y)))
            (cvPoint (wrapInt (Pt.x - BehindPt.x)) (wrapInt (Pt.y - BehindPt.y)))) ∧
          C[i]? = some (PointCross
            (cvPoint (wrapInt (AheadPt.x - Pt.x)) (wrapInt (AheadPt.y - Pt.y)))
            (cvPoint (wrapInt (Pt.x - BehindPt.x)) (wrapInt (Pt.y - BehindPt.y)))) :=
  curvatureLoop_indices squareBoundary 1 (by decide) (by decide) (by decide) (by decide)

/-! ## Lemmas on the success path and on the conversion to float -/

/-- The bits that the conversion drops leave at least 24 significant bits. -/
theorem floatDropBits_le (fuel a : Nat) (ha : 2 ^ 23 ≤ a) :
    2 ^ floatDropBits fuel a * 2 ^ 23 ≤ a := by
  induction fuel generalizing a with
  | zero => simpa [floatDropBits] using ha
  | succ fuel ih =>
    unfold floatDropBits
    by_cases h : a < 2 ^ 24
    · rw [if_pos h]
      simpa using ha
    · rw [if_neg h]
      have h2 : 2 ^ 23 ≤ a / 2 := by omega
      have := ih (a / 2) h2
      rw [pow_succ]
      omega

/-- A dot product whose conversion to `float` is below 1000 is below 1000. -/
theorem lt_1000_of_floatOfInt_lt (d : Int) (h : floatOfInt d < 1000) : d < 1000 := by
  by_contra hd
  by_cases h24 : d.natAbs < 2 ^ 24
  · have e : floatOfInt d = d := by
      unfold floatOfInt
      exact if_pos h24
    omega
  · have hsign : Int.sign d = 1 := Int.sign_eq_one_of_pos (by omega)
    have hle := floatDropBits_le d.natAbs d.natAbs (by omega)
    have hpow : 0 < 2 ^ floatDropBits d.natAbs d.natAbs := Nat.pow_pos (by decide)
    have hq : 2 ^ 23 ≤ d.natAbs / 2 ^ floatDropBits d.natAbs d.natAbs :=
      (Nat.le_div_iff_mul_le hpow).mpr (by rw [Nat.mul_comm]; exact hle)
    have hbig : ∀ m : Nat, d.natAbs / 2 ^ floatDropBits d.natAbs d.natAbs ≤ m →
        (1000 : Int) ≤ Int.sign d * ((m * 2 ^ floatDropBits d.natAbs d.natAbs : Nat) : Int) := by
      intro m hm
      rw [hsign, one_mul]
      have h1 : 2 ^ 23 * 1 ≤ m * 2 ^ floatDropBits d.natAbs d.natAbs :=
        Nat.mul_le_mul (by omega) hpow
      have h2 : (1000 : Nat) ≤ m * 2 ^ floatDropBits d.natAbs d.natAbs := by omega
      exact_mod_cast h2
    unfold floatOfInt at h
    rw [if_neg h24] at h
    dsimp only at h
    split_ifs at h with hup
    · have := hbig (d.natAbs / 2 ^ floatDropBits d.natAbs d.natAbs + 1) (by omega)
      omega
    · have := hbig (d.natAbs / 2 ^ floatDropBits d.natAbs d.natAbs) (le_refl _)
      omega

/-- C22 (counterexample).  On the four-point square in the opposite order every cross product
is -100, so no index has a positive cross product; with NumSegments = 3 the boundary fails
the length test and the call returns -1 with the tail index and the head index left at the
7 they had, which is neither 0 nor the fallback.  On the empty boundary with
NumSegments = 0 the length test passes, no index exists, and the call does not return: after
the tail search it divides by `TotalBPts = 0`, and no head index is produced. -/
theorem sentinel_search_not_always_run :
    (curvatureLoop squareBoundaryRev 1 = some ([0, 0, 0, 0], [-100, -100, -100, -100]) ∧
      (GivenBoundaryFindWormHeadTail (wormOf squareBoundaryRev none none 7 7)
          (paramsOf 3 1 70)).map (fun r => (r.1, r.2.TailIndex, r.2.HeadIndex))
        = some (-1, 7, 7) ∧
      ((7 : Int) + ((squareBoundaryRev.length : Nat) : Int) / 2)
        % ((squareBoundaryRev.length : Nat) : Int) = 1) ∧
    (curvatureLoop [] 1 = some ([], []) ∧
      GivenBoundaryFindWormHeadTail (wormOf [] none none 0 0) (paramsOf 0 1 70) = none) := by
  decide

/-- C22 (amended): on a boundary with at least 2·NumSegments points, NumSegments ≥ 1 (and at
most 2^30 points, as on every boundary on which the curvature loop yields a profile), the
two searches start from 1000.  When no index has both positive cross product and a dot
product below 1000, the tail index is 0; and when no index at circular distance above L/4
from the tail index has both, the head index is the fallback (TailIndex + L/2) mod L. -/
theorem search_start_value (Worm : WormAnalysisData) (Params : WormAnalysisParam)
    (D C : List Int) (hN : 0 < Params.NumSegments)
    (hL : 2 * Params.NumSegments ≤ (Worm.Boundary.length : Int))
    (hprof : curvatureLoop Worm.Boundary Params.LengthScale = some (D, C)) :
    ∃ W', GivenBoundaryFindWormHeadTail Worm Params = some (0, W') ∧
      ((∀ (j : Nat) (d c : Int), D[j]? = some d → C[j]? = some c → ¬ (0 < c ∧ d < 1000)) →
        W'.TailIndex = 0) ∧
      ((∀ (j : Nat) (d c : Int), D[j]? = some d → C[j]? = some c →
          DistBetPtsOnCircBound (Worm.Boundary.length : Int) (j : Int) W'.TailIndex
            > (Worm.Boundary.length : Int) / 4 → ¬ (0 < c ∧ d < 1000)) →
        W'.HeadIndex
          = (W'.TailIndex + (Worm.Boundary.length : Int) / 2) % (Worm.Boundary.length : Int)) := by
  have hpos : 0 < Worm.Boundary.length := by omega
  have hmax := curvatureLoop_bound _ _ _ hprof
  obtain ⟨D', C', m, t, m2, h, hcurv, _, _, htinv, hhinv, hres⟩ :=
    GivenBoundaryFindWormHeadTail_success Worm Params hpos hmax (lengthTest_passes _ _ hN hL)
  rw [hprof] at hcurv
  cases hcurv
  have e4 : Int.tdiv (Worm.Boundary.length : Int) 4 = (Worm.Boundary.length : Int) / 4 :=
    Int.tdiv_eq_ediv (by omega) (by decide)
  rw [e4] at hhinv
  have ht := SearchInv_index_range D C _ 0 _ (m, t) htinv (by omega)
  simp only at ht
  obtain ⟨e1, _, _, _⟩ := fallback_index t (Worm.Boundary.length : Int) ht (by omega)
  refine ⟨_, hres, ?_, ?_⟩
  · show (∀ (j : Nat) (d c : Int), D[j]? = some d → C[j]? = some c →
        ¬ (0 < c ∧ d < 1000)) → t = 0
    intro hnone
    obtain ⟨_, _, h3, h4⟩ := htinv
    apply h4
    by_contra hm
    obtain ⟨k, dk, ck, _, _, _, hdk, hck, hckpos, hfk, _⟩ := h3 (by simp only; omega)
    simp only at hfk
    exact hnone k dk ck hdk hck ⟨hckpos, lt_1000_of_floatOfInt_lt dk (by omega)⟩
  · show (∀ (j : Nat) (d c : Int), D[j]? = some d → C[j]? = some c →
        DistBetPtsOnCircBound (Worm.Boundary.length : Int) (j : Int) t
          > (Worm.Boundary.length : Int) / 4 → ¬ (0 < c ∧ d < 1000)) →
      h = (t + (Worm.Boundary.length : Int) / 2) % (Worm.Boundary.length : Int)
    intro hnone
    obtain ⟨_, _, h3, h4⟩ := hhinv
    rw [← e1]
    apply h4
    by_contra hm
    obtain ⟨k, dk, ck, _, _, helk, hdk, hck, hckpos, hfk, _⟩ := h3 (by simp only; omega)
    simp only at hfk
    exact hnone k dk ck hdk hck helk ⟨hckpos, lt_1000_of_floatOfInt_lt dk (by omega)⟩

/-- C22 (amended) at the octagon with NumSegments = 4 and LengthScale = 1, where every dot
product is
at least 20000: the tail index is 0 and the head index is the fallback 4. -/
theorem search_start_value_witness :
    ∃ W', GivenBoundaryFindWormHeadTail (wormOf octagon none none 0 0) (paramsOf 4 1 70)
        = some (0, W') ∧ W'.TailIndex = 0 ∧ W'.HeadIndex = 4 := by
  obtain ⟨W', hres, htail, hhead⟩ := search_start_value (wormOf octagon none none 0 0)
    (paramsOf 4 1 70) [30000, 30000, 20000, 20000, 30000, 30000, 20000, 20000]
    [30000, 30000, 20000, 20000, 30000, 30000, 20000, 20000] (by decide) (by decide)
    (by decide)
  have hbig : ∀ (j : Nat) (d : Int),
      [30000, 30000, 20000, 20000, 30000, 30000, 20000, 20000][j]? = some d → ¬ d < 1000 := by
    intro j d hd
    have hmem : d ∈ [30000, 30000, 20000, 20000, 30000, 30000, 20000, 20000] :=
      List.getElem?_mem hd
    simp at hmem
    omega
  have ht : W'.TailIndex = 0 := htail (fun j d c hd _ hc => hbig j d hd hc.2)
  have hh := hhead (fun j d c hd _ _ hc => hbig j d hd hc.2)
  refine ⟨W', hres, ht, ?_⟩
  rw [hh, ht]
  decide

/-! ## C23: A second look at a corrected worm -/

/-- C23 (counterexample).  MaxLocationChange = 5, previous head (10,10), previous tail
(20,10): with head (20,10) and tail (21,10) the first call returns 0 and exchanges head and
tail, and the second call on the corrected worm returns 0 again and exchanges them back;
with head (20,10) and tail (100,100) the first call returns 0 and the second call on the
corrected worm returns -1.  MaxLocationChange = 65536, whose square is 0 in the `int`
`rsquared`, previous head (1,1), previous tail (23660,1), head (70001,1), tail (2,1): the
squared distance 46341² from the head to the previous tail is negative in `int`, the first
call returns 0, and the second call on the corrected worm returns -1. -/
theorem PrevFrame_swap_not_stable :
    (PrevFrameImproveWormHeadTail (trackedWorm ⟨20, 10⟩ ⟨21, 10⟩) (paramsOf 2 1 5)
        ⟨⟨10, 10⟩, ⟨20, 10⟩, 4, none⟩
        = some (0, wormOf squareBoundary (some ⟨21, 10⟩) (some ⟨20, 10⟩) 0 2) ∧
      PrevFrameImproveWormHeadTail (wormOf squareBoundary (some ⟨21, 10⟩) (some ⟨20, 10⟩) 0 2)
        (paramsOf 2 1 5) ⟨⟨10, 10⟩, ⟨20, 10⟩, 4, none⟩
        = some (0, trackedWorm ⟨20, 10⟩ ⟨21, 10⟩)) ∧
    (PrevFrameImproveWormHeadTail (trackedWorm ⟨20, 10⟩ ⟨100, 100⟩) (paramsOf 2 1 5)
        ⟨⟨10, 10⟩, ⟨20, 10⟩, 4, none⟩
        = some (0, wormOf squareBoundary (some ⟨100, 100⟩) (some ⟨20, 10⟩) 0 2) ∧
      PrevFrameImproveWormHeadTail
        (wormOf squareBoundary (some ⟨100, 100⟩) (some ⟨20, 10⟩) 0 2)
        (paramsOf 2 1 5) ⟨⟨10, 10⟩, ⟨20, 10⟩, 4, none⟩
        = some (-1, wormOf squareBoundary (some ⟨100, 100⟩) (some ⟨20, 10⟩) 0 2)) ∧
    (squaredDistance ⟨70001, 1⟩ ⟨23660, 1⟩ ≤ 65536 * 65536 ∧
      squaredDistance ⟨2, 1⟩ ⟨1, 1⟩ ≤ 65536 * 65536 ∧
      sqDist ⟨70001, 1⟩ ⟨23660, 1⟩ = -2147479015 ∧
      PrevFrameImproveWormHeadTail (trackedWorm ⟨70001, 1⟩ ⟨2, 1⟩) (paramsOf 2 1 65536)
        ⟨⟨1, 1⟩, ⟨23660, 1⟩, 4, none⟩
        = some (0, wormOf squareBoundary (some ⟨2, 1⟩) (some ⟨70001, 1⟩) 0 2) ∧
      PrevFrameImproveWormHeadTail
        (wormOf squareBoundary (some ⟨2, 1⟩) (some ⟨70001, 1⟩) 0 2)
        (paramsOf 2 1 65536) ⟨⟨1, 1⟩, ⟨23660, 1⟩, 4, none⟩
        = some (-1, wormOf squareBoundary (some ⟨2, 1⟩) (some ⟨70001, 1⟩) 0 2)) := by
  decide

/-- C23 (amended): with MaxLocationChange² below 2^31 (so that it fits the `int`
`rsquared`), if `PrevFrameImproveWormHeadTail` returns 0 on a worm whose head is within
MaxLocationChange of the previous tail and whose tail is within MaxLocationChange of the
previous head, then the call on the corrected worm, with the same parameters and the same
previous geometry, returns 1 and leaves the corrected worm as it is. -/
theorem PrevFrame_swap_stable (Worm W1 : WormAnalysisData) (Params : WormAnalysisParam)
    (PrevWorm : WormGeom) (head tail : CvPoint)
    (hH : Worm.Head = some head) (hT : Worm.Tail = some tail)
    (hM : Params.MaxLocationChange * Params.MaxLocationChange < 2147483648)
    (hres : PrevFrameImproveWormHeadTail Worm Params PrevWorm = some (0, W1))
    (hinvH : squaredDistance head PrevWorm.Tail
      ≤ Params.MaxLocationChange * Params.MaxLocationChange)
    (hinvT : squaredDistance tail PrevWorm.Head
      ≤ Params.MaxLocationChange * Params.MaxLocationChange) :
    PrevFrameImproveWormHeadTail W1 Params PrevWorm = some (1, W1) := by
  have hset : PrevWorm.Head.x ≠ 0 ∧ PrevWorm.Head.y ≠ 0 ∧ PrevWorm.Tail.x ≠ 0 ∧
      PrevWorm.Tail.y ≠ 0 ∧ PrevWorm.Perimeter ≠ 0 := by
    by_contra hg
    have hguard : PrevWorm.Head.x = 0 ∨ PrevWorm.Head.y = 0 ∨ PrevWorm.Tail.y = 0 ∨
        PrevWorm.Tail.x = 0 ∨ PrevWorm.Perimeter = 0 := by
      by_contra hn
      apply hg
      simp only [not_or] at hn
      exact ⟨hn.1, hn.2.1, hn.2.2.2.1, hn.2.2.1, hn.2.2.2.2⟩
    unfold PrevFrameImproveWormHeadTail at hres
    rw [if_pos hguard] at hres
    cases hres
  rw [PrevFrame_unfold Worm Params PrevWorm head tail hset hH hT] at hres
  have hW1 : W1 = { Worm with
      Head := Worm.Tail
      Tail := Worm.Head
      HeadIndex := Worm.TailIndex
      TailIndex := Worm.HeadIndex } := by
    split_ifs at hres <;> cases hres
    rfl
  have hH1 : W1.Head = some tail := by rw [hW1]; exact hT
  have hT1 : W1.Tail = some head := by rw [hW1]; exact hH
  rw [PrevFrame_unfold W1 Params PrevWorm tail head hset hH1 hT1, rsquared_exact _ hM,
    sqDist_exact tail PrevWorm.Head (by omega), sqDist_exact head PrevWorm.Tail (by omega)]
  rw [if_neg (by omega)]

/-- C23 (amended) at MaxLocationChange = 70, previous head (100,100) and tail (200,200),
head (201,204) and tail (103,98). -/
theorem PrevFrame_swap_stable_witness :
    PrevFrameImproveWormHeadTail (wormOf squareBoundary (some ⟨103, 98⟩) (some ⟨201, 204⟩) 0 2)
        (paramsOf 2 1 70) ⟨⟨100, 100⟩, ⟨200, 200⟩, 4, none⟩
      = some (1, wormOf squareBoundary (some ⟨103, 98⟩) (some ⟨201, 204⟩) 0 2) :=
  PrevFrame_swap_stable (trackedWorm ⟨201, 204⟩ ⟨103, 98⟩)
    (wormOf squareBoundary (some ⟨103, 98⟩) (some ⟨201, 204⟩) 0 2) (paramsOf 2 1 70)
    ⟨⟨100, 100⟩, ⟨200, 200⟩, 4, none⟩ ⟨201, 204⟩ ⟨103, 98⟩ rfl rfl (by decide) (by decide)
    (by decide) (by decide)

/-! ## C24: Snapshots give no prior data -/

/-- C24: a snapshot written by `LoadWormGeom`, reset by `ClearWormGeom` or made by
`CreateWormGeom` has head (0,0) and tail (0,0), whatever the head and the tail of the worm
are, and `PrevFrameImproveWormHeadTail` returns 2 on it for every worm and parameters and
leaves the worm as it is. -/
theorem snapshot_gives_noPriorData (g : WormGeom) (Worm Current : WormAnalysisData)
    (Params : WormAnalysisParam) :
    (∃ g', LoadWormGeom (some g) Worm = some g' ∧ g'.Head = ⟨0, 0⟩ ∧ g'.Tail = ⟨0, 0⟩ ∧
      PrevFrameImproveWormHeadTail Current Params g' = some (2, Current)) ∧
    (∃ g', ClearWormGeom (some g) = some g' ∧ g'.Head = ⟨0, 0⟩ ∧ g'.Tail = ⟨0, 0⟩ ∧
      PrevFrameImproveWormHeadTail Current Params g' = some (2, Current)) ∧
    (∃ g', CreateWormGeom g = some g' ∧ g'.Head = ⟨0, 0⟩ ∧ g'.Tail = ⟨0, 0⟩ ∧
      PrevFrameImproveWormHeadTail Current Params g' = some (2, Current)) := by
  have key : ∀ g' : WormGeom, g'.Head = ⟨0, 0⟩ →
      PrevFrameImproveWormHeadTail Current Params g' = some (2, Current) := by
    intro g' hg
    unfold PrevFrameImproveWormHeadTail
    rw [if_pos (Or.inl (by rw [hg]))]
  exact ⟨⟨_, LoadWormGeom_some g Worm, rfl, rfl, key _ rfl⟩, ⟨_, rfl, rfl, rfl, key _ rfl⟩,
    ⟨_, rfl, rfl, rfl, key _ rfl⟩⟩

/-! ## C25: What the verdict depends on -/

/-- C25: two calls of `PrevFrameImproveWormHeadTail` whose worms have the same Head and Tail,
whose previous geometries have the same head and tail and perimeters that are both zero or
both not, and whose parameters have the same MaxLocationChange, return the same code and
make the same change: both leave their worm as it is, or both exchange its head and tail
(or both dereference a `NULL` head or tail).  MaxPerimChange, the value of a non-zero
perimeter, the boundary and the indices play no part. -/
theorem PrevFrame_depends_only_on (Worm1 Worm2 : WormAnalysisData)
    (Params1 Params2 : WormAnalysisParam) (Prev1 Prev2 : WormGeom)
    (hH : Worm1.Head = Worm2.Head) (hT : Worm1.Tail = Worm2.Tail)
    (hPH : Prev1.Head = Prev2.Head) (hPT : Prev1.Tail = Prev2.Tail)
    (hM : Params1.MaxLocationChange = Params2.MaxLocationChange)
    (hP : Prev1.Perimeter = 0 ↔ Prev2.Perimeter = 0) :
    (PrevFrameImproveWormHeadTail Worm1 Params1 Prev1 = none ∧
      PrevFrameImproveWormHeadTail Worm2 Params2 Prev2 = none) ∨
    ∃ r : Int,
      (PrevFrameImproveWormHeadTail Worm1 Params1 Prev1 = some (r, Worm1) ∧
        PrevFrameImproveWormHeadTail Worm2 Params2 Prev2 = some (r, Worm2)) ∨
      (PrevFrameImproveWormHeadTail Worm1 Params1 Prev1 = some (r, { Worm1 with
          Head := Worm1.Tail
          Tail := Worm1.Head
          HeadIndex := Worm1.TailIndex
          TailIndex := Worm1.HeadIndex }) ∧
        PrevFrameImproveWormHeadTail Worm2 Params2 Prev2 = some (r, { Worm2 with
          Head := Worm2.Tail
          Tail := Worm2.Head
          HeadIndex := Worm2.TailIndex
          TailIndex := Worm2.HeadIndex })) := by
  by_cases hg : Prev1.Head.x = 0 ∨ Prev1.Head.y = 0 ∨ Prev1.Tail.y = 0 ∨ Prev1.Tail.x = 0 ∨
      Prev1.Perimeter = 0
  · have hg2 : Prev2.Head.x = 0 ∨ Prev2.Head.y = 0 ∨ Prev2.Tail.y = 0 ∨ Prev2.Tail.x = 0 ∨
        Prev2.Perimeter = 0 := by
      rw [← hPH, ← hPT, ← hP]
      exact hg
    right
    refine ⟨2, Or.inl ⟨?_, ?_⟩⟩
    · unfold PrevFrameImproveWormHeadTail
      rw [if_pos hg]
    · unfold PrevFrameImproveWormHeadTail
      rw [if_pos hg2]
  · have hg2 : ¬ (Prev2.Head.x = 0 ∨ Prev2.Head.y = 0 ∨ Prev2.Tail.y = 0 ∨ Prev2.Tail.x = 0 ∨
        Prev2.Perimeter = 0) := by
      rw [← hPH, ← hPT, ← hP]
      exact hg
    rcases Option.eq_none_or_eq_some Worm1.Head with hh | ⟨head, hh⟩
    · left
      constructor
      · unfold PrevFrameImproveWormHeadTail
        rw [if_neg hg]
        simp only [hh]
      · unfold PrevFrameImproveWormHeadTail
        rw [if_neg hg2]
        simp only [← hH, hh]
    · rcases Option.eq_none_or_eq_some Worm1.Tail with ht | ⟨tail, ht⟩
      · left
        constructor
        · unfold PrevFrameImproveWormHeadTail
          rw [if_neg hg]
          simp only [hh, ht]
        · unfold PrevFrameImproveWormHeadTail
          rw [if_neg hg2]
          simp only [← hH, ← hT, hh, ht]
      · have hs1 : Prev1.Head.x ≠ 0 ∧ Prev1.Head.y ≠ 0 ∧ Prev1.Tail.x ≠ 0 ∧
            Prev1.Tail.y ≠ 0 ∧ Prev1.Perimeter ≠ 0 := by
          simp only [not_or] at hg
          exact ⟨hg.1, hg.2.1, hg.2.2.2.1, hg.2.2.1, hg.2.2.2.2⟩
        have hs2 : Prev2.Head.x ≠ 0 ∧ Prev2.Head.y ≠ 0 ∧ Prev2.Tail.x ≠ 0 ∧
            Prev2.Tail.y ≠ 0 ∧ Prev2.Perimeter ≠ 0 := by
          simp only [not_or] at hg2
          exact ⟨hg2.1, hg2.2.1, hg2.2.2.2.1, hg2.2.2.1, hg2.2.2.2.2⟩
        right
        rw [PrevFrame_unfold Worm1 Params1 Prev1 head tail hs1 hh ht,
          PrevFrame_unfold Worm2 Params2 Prev2 head tail hs2 (by rw [← hH]; exact hh)
            (by rw [← hT]; exact ht)]
        rw [← hPH, ← hPT, ← hM]
        split_ifs
        · exact ⟨0, Or.inr ⟨rfl, rfl⟩⟩
        · exact ⟨-1, Or.inl ⟨rfl, rfl⟩⟩
        · exact ⟨1, Or.inl ⟨rfl, rfl⟩⟩

/-- C25 at two worms with head (201,204) and tail (103,98), one on the four-point square
with indices 2 and 0, the other on the octagon with indices 5 and 1, previous perimeters 4
and 900, and MaxPerimChange 10 and 3: both calls return 0 and exchange head and tail. -/
theorem PrevFrame_depends_only_on_witness :
    PrevFrameImproveWormHeadTail (trackedWorm ⟨201, 204⟩ ⟨103, 98⟩) (paramsOf 2 1 70)
        ⟨⟨100, 100⟩, ⟨200, 200⟩, 4, none⟩
      = some (0, wormOf squareBoundary (some ⟨103, 98⟩) (some ⟨201, 204⟩) 0 2) ∧
    PrevFrameImproveWormHeadTail (wormOf octagon (some ⟨201, 204⟩) (some ⟨103, 98⟩) 5 1)
        ⟨4, 1, 70, 3⟩ ⟨⟨100, 100⟩, ⟨200, 200⟩, 900, some ⟨7, 7⟩⟩
      = some (0, wormOf octagon (some ⟨103, 98⟩) (some ⟨201, 204⟩) 1 5) := by
  have h := PrevFrame_depends_only_on (trackedWorm ⟨201, 204⟩ ⟨103, 98⟩)
    (wormOf octagon (some ⟨201, 204⟩) (some ⟨103, 98⟩) 5 1) (paramsOf 2 1 70) ⟨4, 1, 70, 3⟩
    ⟨⟨100, 100⟩, ⟨200, 200⟩, 4, none⟩ ⟨⟨100, 100⟩, ⟨200, 200⟩, 900, some ⟨7, 7⟩⟩
    rfl rfl rfl rfl rfl (by decide)
  have h1 : PrevFrameImproveWormHeadTail (trackedWorm ⟨201, 204⟩ ⟨103, 98⟩) (paramsOf 2 1 70)
      ⟨⟨100, 100⟩, ⟨200, 200⟩, 4, none⟩
      = some (0, wormOf squareBoundary (some ⟨103, 98⟩) (some ⟨201, 204⟩) 0 2) := by decide
  refine ⟨h1, ?_⟩
  rcases h with ⟨hn, _⟩ | ⟨r, ⟨hs1, hs2⟩ | ⟨hs1, hs2⟩⟩
  · rw [h1] at hn
    cases hn
  · rw [h1] at hs1
    have hi : some (0 : Int) = some (2 : Int) :=
      congrArg (fun o => o.map (fun p => p.2.HeadIndex)) hs1
    exact absurd hi (by decide)
  · rw [h1] at hs1
    have hr : r = 0 := by
      have := congrArg (fun o => o.map Prod.fst) hs1
      simpa using this.symm
    rw [hs2, hr]
    rfl


/-! ## C26: Segments drawn by the illumination -/

/-- A segment below 1 is not drawn. -/
theorem IlluminateWormSegment_skip (image : Illumination) (centerline Boundary : List CvPoint)
    (segment : Int) (h : segment < 1) :
    IlluminateWormSegment image centerline Boundary segment = some image := by
  unfold IlluminateWormSegment
  rw [if_pos h]

/-- A segment from 1 to the last index of both sequences is drawn: one polygon is filled
for it, after the indices `segment` and `segment - 1` were read in both sequences. -/
theorem IlluminateWormSegment_draw (image : Illumination) (centerline Boundary : List CvPoint)
    (segment : Int) (h1 : 1 ≤ segment) (hmax : segment ≤ 2147483647)
    (hc : segment < (centerline.length : Int))
    (hb : segment < (Boundary.length : Int)) :
    ∃ poly, IlluminateWormSegment image centerline Boundary segment
      = some { filled := image.filled ++ [(segment, poly)]
               reads := image.reads ++ [segment, segment - 1, segment, segment - 1] } := by
  obtain ⟨a, ha⟩ := cvGetSeqElem_in_range centerline segment ⟨by omega, hc⟩
  obtain ⟨b, hb1⟩ := cvGetSeqElem_in_range centerline (segment - 1) ⟨by omega, by omega⟩
  obtain ⟨c, hc1⟩ := cvGetSeqElem_in_range Boundary segment ⟨by omega, hb⟩
  obtain ⟨d, hd⟩ := cvGetSeqElem_in_range Boundary (segment - 1) ⟨by omega, by omega⟩
  unfold IlluminateWormSegment
  rw [if_neg (by omega), wrapInt_eq (segment - 1) (by omega)]
  simp only [ha, hb1, hc1, hd]
  exact ⟨_, rfl⟩

/-- One iteration of the loop, for a segment `i = startSeg + k` with 0 ≤ i < NumSegments - 1:
it fills polygons for the segment `i` only, at least one when 1 ≤ i and 1 ≤ lrc, none when
i < 1 or lrc ≤ 0, and it reads indices in [0, NumSegments - 1] only. -/
theorem illuminateBody_spec (SegWorm : SegmentedWorm) (lrc startSeg : Int)
    (image : Illumination) (k : Nat)
    (hC : (SegWorm.Centerline.length : Int) = SegWorm.NumSegments)
    (hLB : (SegWorm.LeftBound.length : Int) = SegWorm.NumSegments)
    (hRB : (SegWorm.RightBound.length : Int) = SegWorm.NumSegments)
    (hNmax : SegWorm.NumSegments ≤ 2147483647)
    (hi0 : 0 ≤ startSeg + (k : Int)) (hi1 : startSeg + (k : Int) < SegWorm.NumSegments - 1) :
    ∃ fills rds, illuminateBody SegWorm lrc startSeg image k
        = some { filled := image.filled ++ fills, reads := image.reads ++ rds } ∧
      (∀ x ∈ fills, x.1 = startSeg + (k : Int) ∧ 1 ≤ x.1) ∧
      (1 ≤ startSeg + (k : Int) → 1 ≤ lrc → ∃ poly, (startSeg + (k : Int), poly) ∈ fills) ∧
      (lrc ≤ 0 → fills = [] ∧ rds = []) ∧
      (∀ r ∈ rds, 0 ≤ r ∧ r ≤ SegWorm.NumSegments - 1) := by
  unfold illuminateBody
  dsimp only
  by_cases hlow : startSeg + (k : Int) < 1
  · refine ⟨[], [], ?_, ?_, ?_, ?_, ?_⟩
    · simp only [IlluminateWormSegment_skip _ _ _ _ hlow, List.append_nil]
      split_ifs <;> rfl
    · intro x hx
      cases hx
    · intro h
      omega
    · intro _
      exact ⟨rfl, rfl⟩
    · intro r hr
      cases hr
  · have h1 : 1 ≤ startSeg + (k : Int) := by omega
    by_cases hl : lrc = 1 ∨ lrc = 3
    · obtain ⟨p1, hp1⟩ := IlluminateWormSegment_draw image SegWorm.Centerline
        SegWorm.LeftBound (startSeg + (k : Int)) h1 (by omega) (by omega) (by omega)
      rw [if_pos hl, hp1]
      dsimp only
      by_cases hr : lrc > 1
      · obtain ⟨p2, hp2⟩ := IlluminateWormSegment_draw
          { filled := image.filled ++ [(startSeg + (k : Int), p1)]
            reads := image.reads ++ [startSeg + (k : Int), startSeg + (k : Int) - 1,
              startSeg + (k : Int), startSeg + (k : Int) - 1] }
          SegWorm.Centerline SegWorm.RightBound (startSeg + (k : Int)) h1 (by omega) (by omega)
          (by omega)
        rw [if_pos hr, hp2]
        refine ⟨[(startSeg + (k : Int), p1), (startSeg + (k : Int), p2)],
          [startSeg + (k : Int), startSeg + (k : Int) - 1, startSeg + (k : Int),
            startSeg + (k : Int) - 1, startSeg + (k : Int), startSeg + (k : Int) - 1,
            startSeg + (k : Int), startSeg + (k : Int) - 1], ?_, ?_, ?_, ?_, ?_⟩
        · simp
        · intro x hx
          simp only [List.mem_cons, List.mem_singleton, List.not_mem_nil, or_false] at hx
          rcases hx with rfl | rfl <;> exact ⟨rfl, h1⟩
        · intro _ _
          exact ⟨p1, by simp⟩
        · intro h
          omega
        · intro r hr
          simp only [List.mem_cons, List.mem_singleton, List.not_mem_nil, or_false] at hr
          omega
      · rw [if_neg hr]
        refine ⟨[(startSeg + (k : Int), p1)],
          [startSeg + (k : Int), startSeg + (k : Int) - 1, startSeg + (k : Int),
            startSeg + (k : Int) - 1], rfl, ?_, ?_, ?_, ?_⟩
        · intro x hx
          simp only [List.mem_singleton] at hx
          rw [hx]
          exact ⟨rfl, h1⟩
        · intro _ _
          exact ⟨p1, by simp⟩
        · intro h
          omega
        · intro r hr
          simp only [List.mem_cons, List.mem_singleton, List.not_mem_nil, or_false] at hr
          omega
    · rw [if_neg hl]
      dsimp only
      by_cases hr : lrc > 1
      · obtain ⟨p2, hp2⟩ := IlluminateWormSegment_draw image SegWorm.Centerline
          SegWorm.RightBound (startSeg + (k : Int)) h1 (by omega) (by omega) (by omega)
        rw [if_pos hr, hp2]
        refine ⟨[(startSeg + (k : Int), p2)],
          [startSeg + (k : Int), startSeg + (k : Int) - 1, startSeg + (k : Int),
            startSeg + (k : Int) - 1], rfl, ?_, ?_, ?_, ?_⟩
        · intro x hx
          simp only [List.mem_singleton] at hx
          rw [hx]
          exact ⟨rfl, h1⟩
        · intro _ _
          exact ⟨p2, by simp⟩
        · intro h
          omega
        · intro r hr
          simp only [List.mem_cons, List.mem_singleton, List.not_mem_nil, or_false] at hr
          omega
      · rw [if_neg hr]
        refine ⟨[], [], by simp, ?_, ?_, ?_, ?_⟩
        · intro x hx
          cases hx
        · intro _ h
          omega
        · intro _
          exact ⟨rfl, rfl⟩
        · intro r hr
          cases hr

/-- The loop of `SimpleIlluminateWormLR` over `n` segments from `startSeg ≥ 0`, all below
NumSegments - 1: it completes; with 1 ≤ lrc the segments it has filled polygons for are those
from 1 on among them; with lrc ≤ 0 it has done nothing; and the indices it has read are in
[0, NumSegments - 1]. -/
theorem illuminate_loop (SegWorm : SegmentedWorm) (lrc startSeg : Int) (n : Nat)
    (hC : (SegWorm.Centerline.length : Int) = SegWorm.NumSegments)
    (hLB : (SegWorm.LeftBound.length : Int) = SegWorm.NumSegments)
    (hRB : (SegWorm.RightBound.length : Int) = SegWorm.NumSegments)
    (hNmax : SegWorm.NumSegments ≤ 2147483647)
    (hs : 0 ≤ startSeg)
    (hn : ∀ k : Nat, k < n → startSeg + (k : Int) < SegWorm.NumSegments - 1) :
    ∃ image, forLoop (illuminateBody SegWorm lrc startSeg) ⟨[], []⟩ n = some image ∧
      (∀ x ∈ image.filled, startSeg ≤ x.1 ∧ x.1 < startSeg + (n : Int) ∧ 1 ≤ x.1) ∧
      (1 ≤ lrc → ∀ i : Int, startSeg ≤ i → i < startSeg + (n : Int) → 1 ≤ i →
        ∃ poly, (i, poly) ∈ image.filled) ∧
      (lrc ≤ 0 → image = ⟨[], []⟩) ∧
      (∀ r ∈ image.reads, 0 ≤ r ∧ r ≤ SegWorm.NumSegments - 1) := by
  refine forLoop_inv (illuminateBody SegWorm lrc startSeg) ⟨[], []⟩
    (fun k image =>
      (∀ x ∈ image.filled, startSeg ≤ x.1 ∧ x.1 < startSeg + (k : Int) ∧ 1 ≤ x.1) ∧
      (1 ≤ lrc → ∀ i : Int, startSeg ≤ i → i < startSeg + (k : Int) → 1 ≤ i →
        ∃ poly, (i, poly) ∈ image.filled) ∧
      (lrc ≤ 0 → image = ⟨[], []⟩) ∧
      (∀ r ∈ image.reads, 0 ≤ r ∧ r ≤ SegWorm.NumSegments - 1))
    n ?_ ?_ n (le_refl n)
  · refine ⟨?_, ?_, fun _ => rfl, ?_⟩
    · intro x hx
      cases hx
    · intro _ i h1 h2
      omega
    · intro r hr
      cases hr
  · intro k image hk ⟨g1, g2, g3, g4⟩
    obtain ⟨fills, rds, hbody, f1, f2, f3, f4⟩ := illuminateBody_spec SegWorm lrc startSeg
      image k hC hLB hRB hNmax (by omega) (hn k hk)
    refine ⟨_, hbody, ?_, ?_, ?_, ?_⟩
    · intro x hx
      rcases List.mem_append.mp hx with hx | hx
      · have := g1 x hx
        push_cast
        omega
      · have := f1 x hx
        push_cast
        omega
    · intro hl i h1 h2 h3
      by_cases hi : i < startSeg + (k : Int)
      · obtain ⟨poly, hp⟩ := g2 hl i h1 hi h3
        exact ⟨poly, List.mem_append.mpr (Or.inl hp)⟩
      · have e : i = startSeg + (k : Int) := by
          push_cast at h2
          omega
        obtain ⟨poly, hp⟩ := f2 (by omega) hl
        rw [e]
        exact ⟨poly, List.mem_append.mpr (Or.inr hp)⟩
    · intro hl
      rw [g3 hl, (f3 hl).1, (f3 hl).2]
      rfl
    · intro r hr
      rcases List.mem_append.mp hr with hr | hr
      · exact g4 r hr
      · exact f4 r hr

/-- C26 (counterexample), on a segmented worm of four segments with center 2.  With radius 2
and lrc = 0 the function returns 0 and fills no polygon, although the segments 1 and 2
satisfy max(1, center - radius) ≤ i < min(NumSegments - 1, center + radius).  With radius
2147483647 and lrc = 3 the `int` sum `center+radius` is -2147483647, the loop runs from 0
to that, and the function returns 0 and fills no polygon, although the segments 1 and 2
satisfy the same bounds. -/
theorem SimpleIlluminateWormLR_lrc_zero_draws_nothing :
    ((fourSegments.Centerline.length : Int) = fourSegments.NumSegments ∧
      (fourSegments.LeftBound.length : Int) = fourSegments.NumSegments ∧
      (fourSegments.RightBound.length : Int) = fourSegments.NumSegments ∧
      1 ≤ fourSegments.NumSegments) ∧
    (SimpleIlluminateWormLR fourSegments 2 2 0 = some (0, ⟨[], []⟩) ∧
      (max 1 (2 - 2) ≤ (1 : Int) ∧
        (1 : Int) < min (fourSegments.NumSegments - 1) (2 + 2))) ∧
    (wrapInt (2 + 2147483647) = -2147483647 ∧
      SimpleIlluminateWormLR fourSegments 2 2147483647 3 = some (0, ⟨[], []⟩) ∧
      (max 1 (2 - 2147483647) ≤ (1 : Int) ∧
        (1 : Int) < min (fourSegments.NumSegments - 1) (2 + 2147483647))) := by
  decide

/-- C26 (amended): on a segmented worm whose Centerline, LeftBound and RightBound each have
NumSegments entries, 1 ≤ NumSegments ≤ 2^31 - 1, `SimpleIlluminateWormLR` returns -1 without
drawing when center < 0 or center > NumSegments; for 0 ≤ center ≤ NumSegments and every
radius for which center + radius and center - radius are in the range of `int` it returns 0
and reads only indices in [0, NumSegments - 1]; with lrc ≥ 1 the segments it draws are
exactly the i with max(1, center - radius) ≤ i < min(NumSegments - 1, center + radius), and
with lrc ≤ 0 it draws nothing. -/
theorem SimpleIlluminateWormLR_segments (SegWorm : SegmentedWorm) (center radius lrc : Int)
    (hC : (SegWorm.Centerline.length : Int) = SegWorm.NumSegments)
    (hLB : (SegWorm.LeftBound.length : Int) = SegWorm.NumSegments)
    (hRB : (SegWorm.RightBound.length : Int) = SegWorm.NumSegments)
    (hN : 1 ≤ SegWorm.NumSegments) (hNmax : SegWorm.NumSegments ≤ 2147483647) :
    ((center < 0 ∨ center > SegWorm.NumSegments) →
      SimpleIlluminateWormLR SegWorm center radius lrc = some (-1, ⟨[], []⟩)) ∧
    ((0 ≤ center ∧ center ≤ SegWorm.NumSegments ∧
        -2147483648 ≤ center + radius ∧ center + radius ≤ 2147483647 ∧
        -2147483648 ≤ center - radius ∧ center - radius ≤ 2147483647) →
      ∃ image, SimpleIlluminateWormLR SegWorm center radius lrc = some (0, image) ∧
        (1 ≤ lrc → ∀ i : Int, (∃ poly, (i, poly) ∈ image.filled) ↔
          (max 1 (center - radius) ≤ i ∧
            i < min (SegWorm.NumSegments - 1) (center + radius))) ∧
        (lrc ≤ 0 → image.filled = []) ∧
        (∀ r ∈ image.reads, 0 ≤ r ∧ r ≤ SegWorm.NumSegments - 1)) := by
  constructor
  · intro h
    unfold SimpleIlluminateWormLR
    dsimp only
    rw [if_pos (by omega)]
  · intro h
    have hz : ¬ (SegWorm.Centerline.length = 0 ∨ SegWorm.LeftBound.length = 0 ∨
        SegWorm.RightBound.length = 0) := by omega
    have eS : wrapInt (center + radius) = center + radius := wrapInt_eq _ (by omega)
    have eD : wrapInt (center - radius) = center - radius := wrapInt_eq _ (by omega)
    have eN : wrapInt (SegWorm.NumSegments - 1) = SegWorm.NumSegments - 1 :=
      wrapInt_eq _ (by omega)
    obtain ⟨image, hloop, g1, g2, g3, g4⟩ := illuminate_loop SegWorm lrc
      (if center - radius < 0 then 0 else center - radius)
      ((if center + radius > SegWorm.NumSegments - 1 then SegWorm.NumSegments - 1
          else center + radius)
        - (if center - radius < 0 then 0 else center - radius)).toNat
      hC hLB hRB hNmax (by split_ifs <;> omega) (by
        intro k hk
        split_ifs at hk ⊢ <;> omega)
    refine ⟨image, ?_, ?_, ?_, g4⟩
    · unfold SimpleIlluminateWormLR
      rw [eS, eD, eN]
      dsimp only
      rw [if_neg (by omega), if_neg hz, hloop]
    · intro hl i
      constructor
      · rintro ⟨poly, hp⟩
        have := g1 (i, poly) hp
        simp only at this
        split_ifs at this <;> omega
      · rintro ⟨h1, h2⟩
        apply g2 hl i
        · split_ifs <;> omega
        · split_ifs <;> omega
        · omega
    · intro hl
      rw [g3 hl]

/-- C26 (amended) on a segmented worm of four segments with center 2, radius 2 and
lrc = 3. -/
theorem SimpleIlluminateWormLR_segments_witness :
    ∃ image, SimpleIlluminateWormLR fourSegments 2 2 3 = some (0, image) ∧
      (∀ i : Int, (∃ poly, (i, poly) ∈ image.filled) ↔
        (max 1 ((2 : Int) - 2) ≤ i ∧ i < min (fourSegments.NumSegments - 1) ((2 : Int) + 2))) ∧
      (∀ r ∈ image.reads, 0 ≤ r ∧ r ≤ fourSegments.NumSegments - 1) := by
  obtain ⟨image, hres, hdraw, _, hreads⟩ :=
    (SimpleIlluminateWormLR_segments fourSegments 2 2 3 (by decide) (by decide) (by decide)
      (by decide) (by decide)).2
      ⟨by decide, by decide, by decide, by decide, by decide, by decide⟩
  exact ⟨image, hres, hdraw (by decide), hreads⟩

end WormAnalysis
